import Mathlib

/-!
RenderEngine: camera movement model and procedural geometry.

A shallow embedding of `src/Camera.cpp`, `src/Model.cpp`, and of the parts of
`src/Shader.cpp`, `src/Mesh.cpp`, `src/GameObject.cpp` and `src/Game.cpp` that
manage handles, collisions and the collectible list.

* `float` values are elements of a linearly ordered field `K`; the theorems
  are stated for `K = ℝ` (exact real arithmetic, no rounding, no NaN).
* The scalar library functions the sources call (`sqrt`, `cos`, `sin`,
  `glm::radians`) are passed to the program as a record `Scalar K`, so every
  definition translated from the sources is an ordinary computable function
  of its inputs.  `realMath` interprets the record in `ℝ`, with degrees
  converted to radians exactly (`d * π / 180`); `glmMath` converts as GLM does,
  by the rational literal `0.01745329251994329576923690768489`.  The camera
  frame degenerates exactly where `cos(radians(pitch)) = 0`, which happens for
  the exact conversion at pitch 90 and never for the conversion of GLM on a
  `float` pitch, so the frame is studied with `glmMath`.
* `glm::vec3` is `Vec3 K`, with the component formulas of GLM for `dot`,
  `cross`, `length` and `normalize`.
* `int` values are `Int` without wrap-around.  The only `int` arithmetic is the
  index computation of `createSphere`, whose values fit 32 bits for every
  `segments ≤ 46339` (part of `generated_indices_in_range`), and the score
  counters of `Game`.
* The graphics backend is outside the program: its answers (handles, compile
  and link status) are inputs of the model and the release calls made are
  outputs.  Objects that can alias (`*this` and `other` of a move assignment)
  live in a memory indexed by address.
* The random engine is outside the program as well: the values a
  `spawnCollectible` call draws are inputs of the model.
-/

namespace RenderEngine

/-! ## Scalars and vectors -/

/-- The scalar functions of the C and GLM libraries used by the sources. -/
structure Scalar (K : Type) where
  /-- The function `std::sqrt`. -/
  sqrt : K → K
  /-- The function `std::cos`. -/
  cos : K → K
  /-- The function `std::sin`. -/
  sin : K → K
  /-- The function `glm::radians`, degrees to radians. -/
  radians : K → K

/-- The type `glm::vec3`. -/
@[ext]
structure Vec3 (K : Type) where
  x : K
  y : K
  z : K

/-- The type `glm::vec2`. -/
structure Vec2 (K : Type) where
  x : K
  y : K

section Defs

variable {K : Type} [LinearOrderedField K]

/-- The constructor `glm::vec3(s)`: all three components equal to `s`. -/
def Vec3.splat (s : K) : Vec3 K := ⟨s, s, s⟩

/-- Component-wise sum, `a + b` on `glm::vec3`. -/
def Vec3.add (a b : Vec3 K) : Vec3 K := ⟨a.x + b.x, a.y + b.y, a.z + b.z⟩

/-- Component-wise difference, `a - b` on `glm::vec3`. -/
def Vec3.sub (a b : Vec3 K) : Vec3 K := ⟨a.x - b.x, a.y - b.y, a.z - b.z⟩

/-- Vector times scalar, `v * s` on `glm::vec3`. -/
def Vec3.scale (v : Vec3 K) (s : K) : Vec3 K := ⟨v.x * s, v.y * s, v.z * s⟩

/-- The function `glm::dot`. -/
def Vec3.dot (a b : Vec3 K) : K := a.x * b.x + a.y * b.y + a.z * b.z

/-- The function `glm::cross`. -/
def Vec3.cross (a b : Vec3 K) : Vec3 K :=
  ⟨a.y * b.z - b.y * a.z, a.z * b.x - b.z * a.x, a.x * b.y - b.x * a.y⟩

/-- The function `glm::length`: `sqrt(dot(v, v))`. -/
def Vec3.length (M : Scalar K) (v : Vec3 K) : K := M.sqrt (Vec3.dot v v)

/-- The function `glm::normalize`: `v * inversesqrt(dot(v, v))`.  For the zero
vector GLM yields NaN components; here `1 / 0 = 0` makes it the zero vector.
In both readings the result is not a unit vector. -/
def Vec3.normalize (M : Scalar K) (v : Vec3 K) : Vec3 K :=
  Vec3.scale v (1 / M.sqrt (Vec3.dot v v))

/-- The function `std::clamp(v, lo, hi)`. -/
def clamp (v lo hi : K) : K := if v < lo then lo else if hi < v then hi else v

/-! ## Camera (`Camera.h`, `Camera.cpp`) -/

/-- The data members of `class Camera`. -/
@[ext]
structure Camera (K : Type) where
  position : Vec3 K
  front : Vec3 K
  up : Vec3 K
  right : Vec3 K
  worldUp : Vec3 K
  yaw : K
  pitch : K
  movementSpeed : K
  mouseSensitivity : K
  zoom : K
  velocity : Vec3 K
  acceleration : K
  friction : K

/-- The method `Camera::updateCameraVectors`: front from yaw and pitch, then
right from the new front, then up from the new right and front. -/
def Camera.updateCameraVectors (M : Scalar K) (c : Camera K) : Camera K :=
  let front : Vec3 K :=
    ⟨M.cos (M.radians c.yaw) * M.cos (M.radians c.pitch),
     M.sin (M.radians c.pitch),
     M.sin (M.radians c.yaw) * M.cos (M.radians c.pitch)⟩
  let c1 : Camera K := { c with front := Vec3.normalize M front }
  let c2 : Camera K := { c1 with right := Vec3.normalize M (Vec3.cross c1.front c1.worldUp) }
  { c2 with up := Vec3.normalize M (Vec3.cross c2.right c2.front) }

/-- The constructor `Camera::Camera(position, up, yaw, pitch)` (a declaration
named `Camera.Camera` would shadow the type inside its own namespace).  The members
`front`, `up` and `right` have no initialiser; `updateCameraVectors` assigns
all three before the constructor returns. -/
def Camera.new (M : Scalar K) (position up : Vec3 K) (yaw pitch : K) : Camera K :=
  Camera.updateCameraVectors M
    { position := position
      front := Vec3.splat 0
      up := Vec3.splat 0
      right := Vec3.splat 0
      worldUp := up
      yaw := yaw
      pitch := pitch
      movementSpeed := 5.0
      mouseSensitivity := 0.1
      zoom := 45.0
      velocity := Vec3.splat 0.0
      acceleration := 20.0
      friction := 15.0 }

/-- The test `direction & (1 << k)` of `Camera::processKeyboard`: bit `k` of the
two's complement representation of the `int`. -/
def directionBit (direction : Int) (k : Nat) : Bool := direction.testBit k

/-- Lines 30-43 of `Camera::processKeyboard`: the local `desiredVelocity`. -/
def Camera.desiredVelocity (M : Scalar K) (c : Camera K) (direction : Int) : Vec3 K :=
  let d0 : Vec3 K := Vec3.splat 0.0
  let d1 := if directionBit direction 0 then Vec3.add d0 c.front else d0
  let d2 := if directionBit direction 1 then Vec3.sub d1 c.front else d1
  let d3 := if directionBit direction 2 then Vec3.sub d2 c.right else d2
  let d4 := if directionBit direction 3 then Vec3.add d3 c.right else d3
  if Vec3.length M d4 > 0.0 then Vec3.scale (Vec3.normalize M d4) c.movementSpeed else d4

/-- The method `Camera::processKeyboard(direction, deltaTime)`. -/
def Camera.processKeyboard (M : Scalar K) (c : Camera K) (direction : Int) (deltaTime : K) :
    Camera K :=
  let desiredVelocity := Camera.desiredVelocity M c direction
  let acceleration := Vec3.scale (Vec3.sub desiredVelocity c.velocity) c.acceleration
  let c1 : Camera K := { c with velocity := Vec3.add c.velocity (Vec3.scale acceleration deltaTime) }
  let c2 : Camera K := { c1 with velocity := Vec3.scale c1.velocity (1.0 - c1.friction * deltaTime) }
  let c3 : Camera K :=
    if Vec3.length M c2.velocity < 0.01 then { c2 with velocity := Vec3.splat 0.0 } else c2
  { c3 with position := Vec3.add c3.position (Vec3.scale c3.velocity deltaTime) }

/-- The method `Camera::processMouseMovement(xoffset, yoffset, constrainPitch)`. -/
def Camera.processMouseMovement (M : Scalar K) (c : Camera K) (xoffset yoffset : K)
    (constrainPitch : Bool) : Camera K :=
  let xoffset := xoffset * c.mouseSensitivity
  let yoffset := yoffset * c.mouseSensitivity
  let c1 : Camera K := { c with yaw := c.yaw + xoffset }
  let c2 : Camera K := { c1 with pitch := c1.pitch + yoffset }
  let c3 : Camera K := if constrainPitch then { c2 with pitch := clamp c2.pitch (-89.0) 89.0 } else c2
  Camera.updateCameraVectors M c3

/-- The method `Camera::processMouseScroll(yoffset)`. -/
def Camera.processMouseScroll (c : Camera K) (yoffset : K) : Camera K :=
  let c1 : Camera K := { c with zoom := c.zoom - yoffset }
  { c1 with zoom := clamp c1.zoom 1.0 90.0 }

/-! ## Mesh and Model (`Mesh.h`, `Model.h`, `Model.cpp`) -/

/-- The struct `Vertex`. -/
structure Vertex (K : Type) where
  position : Vec3 K
  normal : Vec3 K
  texCoords : Vec2 K

/-- The vertex and index data a `Mesh` is constructed from (`m_vertices`,
`m_indices`); indices are `unsigned int`. -/
structure Mesh (K : Type) where
  vertices : List (Vertex K)
  indices : List Nat

/-- The class `Model`: the list `m_meshes`. -/
structure Model (K : Type) where
  meshes : List (Mesh K)

/-- The method `Model::addMesh`: `m_meshes.push_back(mesh)`. -/
def Model.addMesh (model : Model K) (mesh : Mesh K) : Model K := ⟨model.meshes ++ [mesh]⟩

/-- The values taken by `i` in `for (int i = 0; i < n; ++i)`, in order. -/
def forRange (n : Int) : List Int := (List.range n.toNat).map Int.ofNat

/-- The vertex table of `Model::createCube`. -/
def cubeVertices : List (Vertex K) :=
  [ -- Front face
    ⟨⟨-0.5, -0.5, 0.5⟩, ⟨0.0, 0.0, 1.0⟩, ⟨0.0, 0.0⟩⟩,
    ⟨⟨0.5, -0.5, 0.5⟩, ⟨0.0, 0.0, 1.0⟩, ⟨1.0, 0.0⟩⟩,
    ⟨⟨0.5, 0.5, 0.5⟩, ⟨0.0, 0.0, 1.0⟩, ⟨1.0, 1.0⟩⟩,
    ⟨⟨-0.5, 0.5, 0.5⟩, ⟨0.0, 0.0, 1.0⟩, ⟨0.0, 1.0⟩⟩,
    -- Back face
    ⟨⟨-0.5, -0.5, -0.5⟩, ⟨0.0, 0.0, -1.0⟩, ⟨1.0, 0.0⟩⟩,
    ⟨⟨0.5, -0.5, -0.5⟩, ⟨0.0, 0.0, -1.0⟩, ⟨0.0, 0.0⟩⟩,
    ⟨⟨0.5, 0.5, -0.5⟩, ⟨0.0, 0.0, -1.0⟩, ⟨0.0, 1.0⟩⟩,
    ⟨⟨-0.5, 0.5, -0.5⟩, ⟨0.0, 0.0, -1.0⟩, ⟨1.0, 1.0⟩⟩,
    -- Top face
    ⟨⟨-0.5, 0.5, -0.5⟩, ⟨0.0, 1.0, 0.0⟩, ⟨0.0, 1.0⟩⟩,
    ⟨⟨0.5, 0.5, -0.5⟩, ⟨0.0, 1.0, 0.0⟩, ⟨1.0, 1.0⟩⟩,
    ⟨⟨0.5, 0.5, 0.5⟩, ⟨0.0, 1.0, 0.0⟩, ⟨1.0, 0.0⟩⟩,
    ⟨⟨-0.5, 0.5, 0.5⟩, ⟨0.0, 1.0, 0.0⟩, ⟨0.0, 0.0⟩⟩,
    -- Bottom face
    ⟨⟨-0.5, -0.5, -0.5⟩, ⟨0.0, -1.0, 0.0⟩, ⟨0.0, 0.0⟩⟩,
    ⟨⟨0.5, -0.5, -0.5⟩, ⟨0.0, -1.0, 0.0⟩, ⟨1.0, 0.0⟩⟩,
    ⟨⟨0.5, -0.5, 0.5⟩, ⟨0.0, -1.0, 0.0⟩, ⟨1.0, 1.0⟩⟩,
    ⟨⟨-0.5, -0.5, 0.5⟩, ⟨0.0, -1.0, 0.0⟩, ⟨0.0, 1.0⟩⟩,
    -- Right face
    ⟨⟨0.5, -0.5, -0.5⟩, ⟨1.0, 0.0, 0.0⟩, ⟨0.0, 0.0⟩⟩,
    ⟨⟨0.5, -0.5, 0.5⟩, ⟨1.0, 0.0, 0.0⟩, ⟨1.0, 0.0⟩⟩,
    ⟨⟨0.5, 0.5, 0.5⟩, ⟨1.0, 0.0, 0.0⟩, ⟨1.0, 1.0⟩⟩,
    ⟨⟨0.5, 0.5, -0.5⟩, ⟨1.0, 0.0, 0.0⟩, ⟨0.0, 1.0⟩⟩,
    -- Left face
    ⟨⟨-0.5, -0.5, -0.5⟩, ⟨-1.0, 0.0, 0.0⟩, ⟨1.0, 0.0⟩⟩,
    ⟨⟨-0.5, -0.5, 0.5⟩, ⟨-1.0, 0.0, 0.0⟩, ⟨0.0, 0.0⟩⟩,
    ⟨⟨-0.5, 0.5, 0.5⟩, ⟨-1.0, 0.0, 0.0⟩, ⟨0.0, 1.0⟩⟩,
    ⟨⟨-0.5, 0.5, -0.5⟩, ⟨-1.0, 0.0, 0.0⟩, ⟨1.0, 1.0⟩⟩ ]

/-- The index table of `Model::createCube`. -/
def cubeIndices : List Nat :=
  [ 0, 1, 2, 2, 3, 0,          -- Front
    4, 5, 6, 6, 7, 4,          -- Back
    8, 9, 10, 10, 11, 8,       -- Top
    12, 13, 14, 14, 15, 12,    -- Bottom
    16, 17, 18, 18, 19, 16,    -- Right
    20, 21, 22, 22, 23, 20 ]   -- Left

/-- The factory `Model::createCube()`. -/
def Model.createCube : Model K :=
  Model.addMesh ⟨[]⟩ ⟨cubeVertices, cubeIndices⟩

/-- The body of the vertex loop of `Model::createSphere` (lines 86-96) for grid
point `(x, y)`, with the local constant `pi` as an argument. -/
def sphereVertex (M : Scalar K) (pi : K) (segments x y : Int) : Vertex K :=
  let xSegment : K := (x : K) / (segments : K)
  let ySegment : K := (y : K) / (segments : K)
  let xPos := M.cos (xSegment * 2.0 * pi) * M.sin (ySegment * pi)
  let yPos := M.cos (ySegment * pi)
  let zPos := M.sin (xSegment * 2.0 * pi) * M.sin (ySegment * pi)
  let position : Vec3 K := ⟨xPos * 0.5, yPos * 0.5, zPos * 0.5⟩
  let normal := Vec3.normalize M position
  let texCoords : Vec2 K := ⟨xSegment, ySegment⟩
  ⟨position, normal, texCoords⟩

/-- The body of the index loop of `Model::createSphere` (lines 102-111) for grid
cell `(x, y)`: the six `int` values pushed, in order. -/
def sphereCell (segments x y : Int) : List Int :=
  let first := y * (segments + 1) + x
  let second := first + segments + 1
  [first, second, first + 1, second, second + 1, first + 1]

/-- The index loop of `Model::createSphere` (lines 100-113): the `int` values
pushed for `y = 0 .. segments - 1` and, within a row, `x = 0 .. segments - 1`. -/
def sphereIndexValues (segments : Int) : List Int :=
  (forRange segments).flatMap fun y =>
    (forRange segments).flatMap fun x => sphereCell segments x y

/-- The factory `Model::createSphere(segments)` with the value of its local
constant `pi` as an argument: one vertex per grid point, rows `y = 0 .. segments`
and, within a row, `x = 0 .. segments`; the index values are stored as
`unsigned int`. -/
def Model.createSphereWith (M : Scalar K) (pi : K) (segments : Int) : Model K :=
  let vertices : List (Vertex K) :=
    (forRange (segments + 1)).flatMap fun y =>
      (forRange (segments + 1)).map fun x => sphereVertex M pi segments x y
  let indices : List Nat := (sphereIndexValues segments).map Int.toNat
  Model.addMesh ⟨[]⟩ ⟨vertices, indices⟩

/-- The factory `Model::createSphere(segments)`, with
`pi = 3.14159265358979323846f`. -/
def Model.createSphere (M : Scalar K) (segments : Int) : Model K :=
  Model.createSphereWith M 3.14159265358979323846 segments

/-- The factory `Model::createPlane(size)`. -/
def Model.createPlane (size : K) : Model K :=
  let halfSize := size * 0.5
  let vertices : List (Vertex K) :=
    [ ⟨⟨-halfSize, 0.0, -halfSize⟩, ⟨0.0, 1.0, 0.0⟩, ⟨0.0, 0.0⟩⟩,
      ⟨⟨halfSize, 0.0, -halfSize⟩, ⟨0.0, 1.0, 0.0⟩, ⟨1.0, 0.0⟩⟩,
      ⟨⟨halfSize, 0.0, halfSize⟩, ⟨0.0, 1.0, 0.0⟩, ⟨1.0, 1.0⟩⟩,
      ⟨⟨-halfSize, 0.0, halfSize⟩, ⟨0.0, 1.0, 0.0⟩, ⟨0.0, 1.0⟩⟩ ]
  let indices : List Nat := [0, 1, 2, 2, 3, 0]
  Model.addMesh ⟨[]⟩ ⟨vertices, indices⟩

/-! ## Hardware handles: Shader (`Shader.h`, `Shader.cpp`) and Mesh (`Mesh.cpp`) -/

/-- A call into the graphics backend that releases an object. -/
inductive GLCall where
  | deleteShader (shader : Nat)
  | deleteProgram (program : Nat)
  | deleteVertexArrays (array : Nat)
  | deleteBuffers (buffer : Nat)
  deriving DecidableEq

/-- What the graphics backend answers during one `Shader::loadFromSource` call:
the handles returned by `glCreateShader` for the two stages and by
`glCreateProgram`, the `GL_COMPILE_STATUS` of each stage and the
`GL_LINK_STATUS`.  The source strings only reach the backend, so the model
takes its answers in their place. -/
structure GLAnswers where
  vertex : Nat
  vertexCompiled : Bool
  fragment : Nat
  fragmentCompiled : Bool
  program : Nat
  linked : Bool

/-- The class `Shader`: the member `m_id`. -/
structure Shader where
  id : Nat
  deriving DecidableEq

/-- The constructor `Shader::Shader()`. -/
def Shader.new : Shader := ⟨0⟩

/-- The accessor `Shader::getId`. -/
def Shader.getId (s : Shader) : Nat := s.id

/-- The method `Shader::compileShader`, for the handle `glCreateShader` returned
and the compile status read back: the result, the handle stored in the `shader`
reference, and the release calls made. -/
def Shader.compileShader (handle : Nat) (success : Bool) : Bool × Nat × List GLCall :=
  if !success then (false, handle, [GLCall.deleteShader handle]) else (true, handle, [])

/-- The method `Shader::linkProgram`, for the link status read back. -/
def Shader.linkProgram (success : Bool) : Bool :=
  if !success then false else true

/-- The method `Shader::loadFromSource`: the result, the object afterwards and
the release calls made, in order. -/
def Shader.loadFromSource (s : Shader) (gl : GLAnswers) : Bool × Shader × List GLCall :=
  let compiledVertex := Shader.compileShader gl.vertex gl.vertexCompiled
  if !compiledVertex.1 then (false, s, compiledVertex.2.2)
  else
    let vertex := compiledVertex.2.1
    let compiledFragment := Shader.compileShader gl.fragment gl.fragmentCompiled
    if !compiledFragment.1 then
      (false, s, compiledVertex.2.2 ++ compiledFragment.2.2 ++ [GLCall.deleteShader vertex])
    else
      let fragment := compiledFragment.2.1
      let s1 : Shader := { s with id := gl.program }
      if !Shader.linkProgram gl.linked then
        (false, { s1 with id := 0 },
          compiledVertex.2.2 ++ compiledFragment.2.2 ++
            [GLCall.deleteShader vertex, GLCall.deleteShader fragment,
              GLCall.deleteProgram s1.id])
      else
        (true, s1,
          compiledVertex.2.2 ++ compiledFragment.2.2 ++
            [GLCall.deleteShader vertex, GLCall.deleteShader fragment])

/-- The move constructor `Shader::Shader(Shader&& other)`: the new object and
`other` afterwards. -/
def Shader.moveConstruct (other : Shader) : Shader × Shader :=
  (⟨other.id⟩, { other with id := 0 })

/-- The move assignment `Shader::operator=(Shader&& other)` on a memory of
objects, `self` and `other` being the addresses of `*this` and of `other`:
the memory afterwards and the release calls made. -/
def Shader.moveAssign (mem : Nat → Shader) (self other : Nat) : (Nat → Shader) × List GLCall :=
  if self ≠ other then
    let calls := if (mem self).id ≠ 0 then [GLCall.deleteProgram (mem self).id] else []
    let mem1 := Function.update mem self { mem self with id := (mem other).id }
    let mem2 := Function.update mem1 other { mem1 other with id := 0 }
    (mem2, calls)
  else (mem, [])

/-- The data members of `class Mesh`: the vertex and index data and the
handles `m_VAO`, `m_VBO`, `m_EBO`. -/
structure MeshObject (K : Type) extends Mesh K where
  VAO : Nat
  VBO : Nat
  EBO : Nat

/-- The move constructor `Mesh::Mesh(Mesh&& other)`: the new object and `other`
afterwards (a moved-from `std::vector` is empty). -/
def MeshObject.moveConstruct (other : MeshObject K) : MeshObject K × MeshObject K :=
  ({ vertices := other.vertices, indices := other.indices,
     VAO := other.VAO, VBO := other.VBO, EBO := other.EBO },
   { vertices := [], indices := [], VAO := 0, VBO := 0, EBO := 0 })

/-- The move assignment `Mesh::operator=(Mesh&& other)` on a memory of objects,
`self` and `other` being the addresses of `*this` and of `other`: the memory
afterwards and the release calls made. -/
def MeshObject.moveAssign (mem : Nat → MeshObject K) (self other : Nat) :
    (Nat → MeshObject K) × List GLCall :=
  if self ≠ other then
    let calls :=
      (if (mem self).VAO ≠ 0 then [GLCall.deleteVertexArrays (mem self).VAO] else []) ++
      (if (mem self).VBO ≠ 0 then [GLCall.deleteBuffers (mem self).VBO] else []) ++
      (if (mem self).EBO ≠ 0 then [GLCall.deleteBuffers (mem self).EBO] else [])
    let mem1 := Function.update mem self
      { vertices := (mem other).vertices, indices := (mem other).indices,
        VAO := (mem other).VAO, VBO := (mem other).VBO, EBO := (mem other).EBO }
    let mem2 := Function.update mem1 other
      { vertices := [], indices := [], VAO := 0, VBO := 0, EBO := 0 }
    (mem2, calls)
  else (mem, [])

/-! ## GameObject and Game (`GameObject.cpp`, `Game.cpp`) -/

/-- The data members of `class GameObject`; the shared pointer `m_model` is
represented by an identifier of the model it points to. -/
structure GameObject (K : Type) where
  model : Nat
  position : Vec3 K
  scale : Vec3 K
  rotation : K
  rotationSpeed : K
  collected : Bool
  boundingRadius : K
  bobOffset : K
  bobSpeed : K

/-- The constructor `GameObject::GameObject(model, position, scale)`. -/
def GameObject.new (model : Nat) (position scale : Vec3 K) : GameObject K :=
  { model := model
    position := position
    scale := scale
    rotation := 0.0
    rotationSpeed := 45.0
    collected := false
    boundingRadius := 0.5 * max (max scale.x scale.y) scale.z
    bobOffset := 0.0
    bobSpeed := 2.0 }

/-- The method `GameObject::update(deltaTime)`. -/
def GameObject.update (o : GameObject K) (deltaTime : K) : GameObject K :=
  if o.collected then o
  else
    let o1 : GameObject K := { o with rotation := o.rotation + o.rotationSpeed * deltaTime }
    let o2 : GameObject K :=
      if o1.rotation ≥ 360.0 then { o1 with rotation := o1.rotation - 360.0 } else o1
    let o3 : GameObject K := { o2 with bobOffset := o2.bobOffset + o2.bobSpeed * deltaTime }
    let twoPi : K := 2.0 * 3.14159265358979323846
    if o3.bobOffset ≥ twoPi then { o3 with bobOffset := o3.bobOffset - twoPi } else o3

/-- The setter `GameObject::setRotation`. -/
def GameObject.setRotation (o : GameObject K) (rotation : K) : GameObject K :=
  { o with rotation := rotation }

/-- The setter `GameObject::setCollected`. -/
def GameObject.setCollected (o : GameObject K) (collected : Bool) : GameObject K :=
  { o with collected := collected }

/-- The members of `class Game` that `update`, `checkCollisions` and
`spawnCollectible` read or write; `m_collectibles` is the vector's buffer. -/
structure Game (K : Type) where
  camera : Camera K
  collectibles : List (GameObject K)
  collectibleModel : Nat
  score : Int
  collectiblesCollected : Int
  gameTime : K

/-- The values one `spawnCollectible` call obtains from the random engine: three
samples of `m_posDistribution`, one raw value `m_rng()`, and one sample of
`m_rotationDistribution`. -/
structure SpawnDraw (K : Type) where
  positionX : K
  positionY : K
  positionZ : K
  raw : Nat
  rotation : K

/-- The loop of `Game::checkCollisions` over the collectibles, with the running
`m_score` and `m_collectiblesCollected`. -/
def Game.checkCollisionsLoop (M : Scalar K) (cameraPos : Vec3 K) (collisionRadius : K) :
    List (GameObject K) → Int → Int → List (GameObject K) × Int × Int
  | [], score, count => ([], score, count)
  | collectible :: rest, score, count =>
    if collectible.collected then
      let r := Game.checkCollisionsLoop M cameraPos collisionRadius rest score count
      (collectible :: r.1, r.2.1, r.2.2)
    else
      let objPos := collectible.position
      let distance := Vec3.length M (Vec3.sub cameraPos objPos)
      let minDistance := collisionRadius + collectible.boundingRadius
      if distance < minDistance then
        let r := Game.checkCollisionsLoop M cameraPos collisionRadius rest (score + 10) (count + 1)
        (collectible.setCollected true :: r.1, r.2.1, r.2.2)
      else
        let r := Game.checkCollisionsLoop M cameraPos collisionRadius rest score count
        (collectible :: r.1, r.2.1, r.2.2)

/-- The method `Game::checkCollisions`. -/
def Game.checkCollisions (M : Scalar K) (g : Game K) : Game K :=
  let cameraPos := g.camera.position
  let collisionRadius : K := 0.8
  let r := Game.checkCollisionsLoop M cameraPos collisionRadius g.collectibles g.score
    g.collectiblesCollected
  { g with collectibles := r.1, score := r.2.1, collectiblesCollected := r.2.2 }

/-- The method `Game::spawnCollectible`, for the values it draws. -/
def Game.spawnCollectible (g : Game K) (draw : SpawnDraw K) : Game K :=
  let position : Vec3 K := ⟨draw.positionX, 0.5 + draw.positionY * 0.1, draw.positionZ⟩
  let scale : K := 0.3 + ((draw.raw % 100 : Nat) : K) / 1000.0
  let collectible := GameObject.new g.collectibleModel position (Vec3.splat scale)
  let collectible := collectible.setRotation draw.rotation
  { g with collectibles := g.collectibles ++ [collectible] }

/-- The call `std::remove_if(begin, end, pred)` of `Game::update` on the
buffer of `m_collectibles`, with `n` elements left to visit, `first` the read
position and `result` the write position; the result is the game afterwards
and the position of the returned iterator.  The predicate returns
`isCollected()` and, when that is true, first calls `spawnCollectible()`, which
appends to the same buffer.  An element that is kept is moved to the write
position.  This follows the buffer when `push_back` does not reallocate; the
iterators `remove_if` holds do not survive a reallocation. -/
def Game.removeIfLoop (draws : Nat → SpawnDraw K) :
    Nat → Nat → Nat → Nat → Game K → Game K × Nat
  | 0, _, result, _, g => (g, result)
  | n + 1, first, result, spawned, g =>
    match g.collectibles[first]? with
    | none => (g, result)
    | some obj =>
      if obj.collected then
        Game.removeIfLoop draws n (first + 1) result (spawned + 1)
          (Game.spawnCollectible g (draws spawned))
      else
        Game.removeIfLoop draws n (first + 1) (result + 1) spawned
          { g with collectibles := g.collectibles.set result obj }

/-- The method `Game::update(deltaTime)`; `draws k` are the values the `k`-th
`spawnCollectible` call of this update obtains from the random engine. -/
def Game.update (M : Scalar K) (g : Game K) (deltaTime : K) (draws : Nat → SpawnDraw K) :
    Game K :=
  let g1 : Game K := { g with gameTime := g.gameTime + deltaTime }
  let g2 : Game K := { g1 with collectibles := g1.collectibles.map fun c => c.update deltaTime }
  let g3 := Game.checkCollisions M g2
  let removed := Game.removeIfLoop draws g3.collectibles.length 0 0 0 g3
  { removed.1 with collectibles := removed.1.collectibles.take removed.2 }

/-! ## Setters and constructors used by the frame and reachability statements -/

/-- The setter `Camera::setPosition`. -/
def Camera.setPosition (c : Camera K) (pos : Vec3 K) : Camera K := { c with position := pos }

/-- The setter `Camera::setSpeed`. -/
def Camera.setSpeed (c : Camera K) (speed : K) : Camera K := { c with movementSpeed := speed }

/-- The setter `Camera::setSensitivity`. -/
def Camera.setSensitivity (c : Camera K) (sensitivity : K) : Camera K :=
  { c with mouseSensitivity := sensitivity }

/-- The constructor `Game::Game()` for the members of `Game`: no collectibles,
score, counter and game time zero.  `m_camera` and `m_collectibleModel` are null
until `initialize()` installs them and `checkCollisions` reads the camera, so
the state carries the ones `initialize()` installs. -/
def Game.new (camera : Camera K) (collectibleModel : Nat) : Game K :=
  { camera := camera
    collectibles := []
    collectibleModel := collectibleModel
    score := 0
    collectiblesCollected := 0
    gameTime := 0.0 }

end Defs

/-- The scalar library over the reals: `Real.sqrt`, `Real.cos`, `Real.sin`, and
degrees to radians as multiplication by `π / 180`. -/
noncomputable def realMath : Scalar ℝ :=
  ⟨Real.sqrt, Real.cos, Real.sin, fun d => d * (Real.pi / 180)⟩

/-- The scalar library over the reals with `glm::radians` as GLM computes it:
`degrees * 0.01745329251994329576923690768489`, the decimal literal of
`glm/detail/func_trigonometric.inl`.  The factor is a rational number close to
`π / 180` and not equal to it; `realMath` differs in this member only. -/
noncomputable def glmMath : Scalar ℝ :=
  ⟨Real.sqrt, Real.cos, Real.sin, fun d => d * 0.01745329251994329576923690768489⟩

/-- Square root, cosine and sine of the record are the real functions; the
conversion from degrees to radians is left open. -/
def Scalar.ExactTrig (M : Scalar ℝ) : Prop :=
  M.sqrt = Real.sqrt ∧ M.cos = Real.cos ∧ M.sin = Real.sin

/-! ## Vocabulary of the specification -/

section SpecDefs

variable {K : Type} [LinearOrderedField K]

/-- Saturation of `v` into `[lo, hi]`, the specification's "clamped to". -/
def saturate (v lo hi : K) : K := max lo (min hi v)

/-- One public camera operation with its arguments. -/
inductive CameraOp (K : Type) where
  | keyboard (direction : Int) (deltaTime : K)
  | mouseMovement (xoffset yoffset : K) (constrainPitch : Bool)
  | mouseScroll (yoffset : K)

/-- Perform one public operation on the camera. -/
def Camera.step (M : Scalar K) (c : Camera K) : CameraOp K → Camera K
  | .keyboard direction deltaTime => Camera.processKeyboard M c direction deltaTime
  | .mouseMovement xoffset yoffset constrainPitch =>
      Camera.processMouseMovement M c xoffset yoffset constrainPitch
  | .mouseScroll yoffset => Camera.processMouseScroll c yoffset

/-- Perform a sequence of public operations, first to last. -/
def Camera.run (M : Scalar K) (c : Camera K) (ops : List (CameraOp K)) : Camera K :=
  ops.foldl (Camera.step M) c

/-- The signed sum of the active basis vectors: `+front` for Forward (bit 0),
`-front` for Backward (bit 1), `-right` for Left (bit 2), `+right` for Right
(bit 3). -/
def Camera.signedSum (c : Camera K) (direction : Int) : Vec3 K :=
  let forward : K := (if directionBit direction 0 then 1 else 0) -
    (if directionBit direction 1 then 1 else 0)
  let sideways : K := (if directionBit direction 3 then 1 else 0) -
    (if directionBit direction 2 then 1 else 0)
  Vec3.add (Vec3.scale c.front forward) (Vec3.scale c.right sideways)

/-- No direction bit (Forward, Backward, Left, Right) is set in the bitmask. -/
def noDirectionBit (direction : Int) : Prop := ∀ k, k < 4 → directionBit direction k = false

/-- Front, right and up are mutually orthonormal: each of length 1, every
pairwise dot product 0. -/
def Camera.Orthonormal (M : Scalar K) (c : Camera K) : Prop :=
  Vec3.length M c.front = 1 ∧ Vec3.length M c.right = 1 ∧ Vec3.length M c.up = 1 ∧
    Vec3.dot c.front c.right = 0 ∧ Vec3.dot c.front c.up = 0 ∧ Vec3.dot c.right c.up = 0

/-- A camera state looking along `-Z` with the constructor's constants and the
given velocity. -/
def Camera.lookingForward (velocity : Vec3 K) : Camera K :=
  { position := ⟨0, 0, 0⟩
    front := ⟨0, 0, -1⟩
    up := ⟨0, 1, 0⟩
    right := ⟨1, 0, 0⟩
    worldUp := ⟨0, 1, 0⟩
    yaw := -90
    pitch := 0
    movementSpeed := 5
    mouseSensitivity := 0.1
    zoom := 45
    velocity := velocity
    acceleration := 20
    friction := 15 }

/-- The state after `n` successive calls `processKeyboard(direction, dt)`. -/
def Camera.repeatKeyboard (M : Scalar K) (c : Camera K) (direction : Int) (dt : K) (n : Nat) :
    Camera K :=
  Nat.iterate (fun s => Camera.processKeyboard M s direction dt) n c

/-- The members that fix the forward scenario: front along `-Z`, movement
speed 5, acceleration 20, friction 15. -/
def Camera.ForwardRig (c : Camera K) : Prop :=
  c.front = ⟨0, 0, -1⟩ ∧ c.movementSpeed = 5 ∧ c.acceleration = 20 ∧ c.friction = 15

/-- The invariant of the forward scenario for a step `dt`: the speed `s` along
`-Z` is non-negative, does not exceed the fixed point of the update
`s ↦ (1 - 20 dt)(1 - 15 dt) s + 100 dt (1 - 15 dt)`, and is either zero or at
least the snap threshold. -/
def approachInv (dt s : K) : Prop :=
  0 ≤ s ∧ (1 - (1 - 20 * dt) * (1 - 15 * dt)) * s ≤ 100 * dt * (1 - 15 * dt) ∧
    (s = 0 ∨ 0.01 ≤ s)

/-- The stored front, right and up are the ones `updateCameraVectors` derives
from the stored yaw, pitch and world-up ("never stored stale"). -/
def Camera.VectorsCurrent (M : Scalar K) (c : Camera K) : Prop :=
  c.front = (Camera.updateCameraVectors M c).front ∧
    c.right = (Camera.updateCameraVectors M c).right ∧
    c.up = (Camera.updateCameraVectors M c).up

/-- The six axis unit vectors `+X, -X, +Y, -Y, +Z, -Z`. -/
def axisUnitVectors : List (Vec3 K) :=
  [⟨1, 0, 0⟩, ⟨-1, 0, 0⟩, ⟨0, 1, 0⟩, ⟨0, -1, 0⟩, ⟨0, 0, 1⟩, ⟨0, 0, -1⟩]

/-- The normals of the six cube faces in the order of the vertex table: front,
back, top, bottom, right, left. -/
def cubeFaceNormals : List (Vec3 K) :=
  [⟨0, 0, 1⟩, ⟨0, 0, -1⟩, ⟨0, 1, 0⟩, ⟨0, -1, 0⟩, ⟨1, 0, 0⟩, ⟨-1, 0, 0⟩]

/-- The index list read as triangles, three indices each, in order. -/
def triangles : List Nat → List (Nat × Nat × Nat)
  | i0 :: i1 :: i2 :: rest => (i0, i1, i2) :: triangles rest
  | _ => []

/-- The triangles of a mesh with their three vertices looked up. -/
def Mesh.triangleVertices (mesh : Mesh K) : List (Vertex K × Vertex K × Vertex K) :=
  (triangles mesh.indices).filterMap fun t =>
    match mesh.vertices[t.1]?, mesh.vertices[t.2.1]?, mesh.vertices[t.2.2]? with
    | some a, some b, some c => some (a, b, c)
    | _, _, _ => none

/-- The triangles of all meshes of a model, with their vertices. -/
def Model.triangleVertices (model : Model K) : List (Vertex K × Vertex K × Vertex K) :=
  model.meshes.flatMap Mesh.triangleVertices

/-- The geometric normal `(p1 - p0) × (p2 - p0)` of the triangle `(p0, p1, p2)`:
it points towards the side from which the triangle is seen counter-clockwise. -/
def geometricNormal (p0 p1 p2 : Vec3 K) : Vec3 K :=
  Vec3.cross (Vec3.sub p1 p0) (Vec3.sub p2 p0)

/-- The index of the vertex of grid point `(x, y)` in the vertex list of the
sphere: rows of `segments + 1` vertices, row `y` after row `y - 1`. -/
def gridIndex (segments x y : Int) : Int := y * (segments + 1) + x

/-- Twice the signed area of the triangle `(a, b, c)` in the parameter grid:
positive when counter-clockwise (`x` to the right, `y` upwards). -/
def signedArea2 (a b c : Int × Int) : Int :=
  (b.1 - a.1) * (c.2 - a.2) - (c.1 - a.1) * (b.2 - a.2)

/-- No two shader objects of the memory hold the same non-zero program handle. -/
def Shader.Exclusive (mem : Nat → Shader) : Prop :=
  ∀ a b : Nat, a ≠ b → (mem a).id ≠ 0 → (mem a).id ≠ (mem b).id

/-- No two mesh objects of the memory hold the same non-zero vertex-array
handle or the same non-zero buffer handle. -/
def MeshObject.Exclusive (mem : Nat → MeshObject K) : Prop :=
  ∀ a b : Nat, a ≠ b →
    ((mem a).VAO ≠ 0 → (mem a).VAO ≠ (mem b).VAO) ∧
    ((mem a).VBO ≠ 0 → (mem a).VBO ≠ (mem b).VBO ∧ (mem a).VBO ≠ (mem b).EBO) ∧
    ((mem a).EBO ≠ 0 → (mem a).EBO ≠ (mem b).VBO ∧ (mem a).EBO ≠ (mem b).EBO)

/-- A game whose camera stands at the origin, with the given collectibles and
zero score. -/
def Game.atOrigin (collectibles : List (GameObject K)) : Game K :=
  { camera := Camera.lookingForward ⟨0, 0, 0⟩
    collectibles := collectibles
    collectibleModel := 0
    score := 0
    collectiblesCollected := 0
    gameTime := 0 }

/-- The random values used in the examples: every spawn lands at `(1, 0.5, 1)`
with scale 0.35 and rotation 0. -/
def SpawnDraw.fixed : Nat → SpawnDraw K := fun _ => ⟨1, 0, 1, 50, 0⟩

/-- A full set of 15 collectibles of scale 0.3 (bounding radius 0.15): the
first one at the origin, the other 14 at `(0, 0, -10)`. -/
def Game.oneInReach : Game K :=
  Game.atOrigin
    (GameObject.new 0 ⟨0, 0, 0⟩ (Vec3.splat 0.3) ::
      List.replicate 14 (GameObject.new 0 ⟨0, 0, -10⟩ (Vec3.splat 0.3)))

/-- One public call on the camera: one of the three input operations or one of
the three setters. -/
inductive CameraCall (K : Type) where
  | op (o : CameraOp K)
  | setPosition (pos : Vec3 K)
  | setSpeed (speed : K)
  | setSensitivity (sensitivity : K)

/-- Perform one public call on the camera. -/
def Camera.call (M : Scalar K) (c : Camera K) : CameraCall K → Camera K
  | .op o => Camera.step M c o
  | .setPosition pos => Camera.setPosition c pos
  | .setSpeed speed => Camera.setSpeed c speed
  | .setSensitivity sensitivity => Camera.setSensitivity c sensitivity

/-- Perform a sequence of public calls, first to last. -/
def Camera.calls (M : Scalar K) (c : Camera K) (cs : List (CameraCall K)) : Camera K :=
  cs.foldl (Camera.call M) c

/-- One step of the game as far as the score is concerned: a call of
`checkCollisions`, or the rest of the program replacing the camera and the
collectibles (moving, spawning or removing them) without touching the score. -/
inductive GameStep (K : Type) where
  | checkCollisions
  | rearrange (camera : Camera K) (collectibles : List (GameObject K))

/-- Perform one game step. -/
def Game.step (M : Scalar K) (g : Game K) : GameStep K → Game K
  | .checkCollisions => Game.checkCollisions M g
  | .rearrange camera collectibles => { g with camera := camera, collectibles := collectibles }

/-- Perform a sequence of game steps, first to last. -/
def Game.steps (M : Scalar K) (g : Game K) (ss : List (GameStep K)) : Game K :=
  ss.foldl (Game.step M) g

/-- The constant `twoPi` of `GameObject::update`. -/
def GameObject.twoPi : K := 2.0 * 3.14159265358979323846

/-- The value is a rational number, as every finite `float` value is. -/
def IsRational (x : K) : Prop := ∃ q : ℚ, x = (q : K)

end SpecDefs

/-! ## Basic facts -/

section Lemmas

variable {K : Type} [LinearOrderedField K]

lemma clamp_eq_saturate (v lo hi : K) (h : lo ≤ hi) : clamp v lo hi = saturate v lo hi := by
  unfold clamp saturate
  split_ifs with h1 h2
  · rw [max_eq_left]
    exact le_trans (min_le_right _ _) h1.le
  · rw [min_eq_left h2.le, max_eq_right h]
  · push_neg at h1 h2
    rw [min_eq_right h2, max_eq_right h1]

lemma saturate_mem (v lo hi : K) (h : lo ≤ hi) : lo ≤ saturate v lo hi ∧ saturate v lo hi ≤ hi :=
  ⟨le_max_left _ _, max_le h (min_le_left _ _)⟩

lemma processKeyboard_zoom (M : Scalar K) (c : Camera K) (direction : Int) (dt : K) :
    (Camera.processKeyboard M c direction dt).zoom = c.zoom := by
  unfold Camera.processKeyboard
  dsimp only
  split_ifs <;> rfl

lemma processMouseMovement_zoom (M : Scalar K) (c : Camera K) (dx dy : K) (b : Bool) :
    (Camera.processMouseMovement M c dx dy b).zoom = c.zoom := by
  cases b <;> rfl

lemma processMouseScroll_zoom (c : Camera K) (dy : K) :
    (Camera.processMouseScroll c dy).zoom = saturate (c.zoom - dy) 1 90 := by
  unfold Camera.processMouseScroll
  dsimp only
  rw [clamp_eq_saturate _ _ _ (by norm_num)]
  norm_num

lemma run_zoom_mem (M : Scalar K) (ops : List (CameraOp K)) (c : Camera K)
    (h : 1 ≤ c.zoom ∧ c.zoom ≤ 90) :
    1 ≤ (Camera.run M c ops).zoom ∧ (Camera.run M c ops).zoom ≤ 90 := by
  induction ops generalizing c with
  | nil => exact h
  | cons op ops ih =>
    have hstep : Camera.run M c (op :: ops) = Camera.run M (Camera.step M c op) ops := rfl
    rw [hstep]
    apply ih
    have hz : (Camera.step M c op).zoom = c.zoom ∨
        ∃ dy, (Camera.step M c op).zoom = saturate (c.zoom - dy) 1 90 := by
      cases op with
      | keyboard direction dt => exact Or.inl (processKeyboard_zoom M c direction dt)
      | mouseMovement dx dy b => exact Or.inl (processMouseMovement_zoom M c dx dy b)
      | mouseScroll dy => exact Or.inr ⟨dy, processMouseScroll_zoom c dy⟩
    rcases hz with hz | ⟨dy, hz⟩
    · rw [hz]; exact h
    · rw [hz]; exact saturate_mem _ _ _ (by norm_num)

end Lemmas

/-! ## Vector algebra over the reals -/

@[simp] lemma realMath_sqrt (x : ℝ) : realMath.sqrt x = Real.sqrt x := rfl

@[simp] lemma realMath_cos (x : ℝ) : realMath.cos x = Real.cos x := rfl

@[simp] lemma realMath_sin (x : ℝ) : realMath.sin x = Real.sin x := rfl

@[simp] lemma realMath_radians (x : ℝ) : realMath.radians x = x * (Real.pi / 180) := rfl

lemma Vec3.dot_self_nonneg (v : Vec3 ℝ) : 0 ≤ Vec3.dot v v := by
  unfold Vec3.dot
  nlinarith [mul_self_nonneg v.x, mul_self_nonneg v.y, mul_self_nonneg v.z]

lemma Vec3.dot_self_eq_zero (v : Vec3 ℝ) : Vec3.dot v v = 0 ↔ v = ⟨0, 0, 0⟩ := by
  constructor
  · intro h
    unfold Vec3.dot at h
    have hx : v.x = 0 := by nlinarith [mul_self_nonneg v.x, mul_self_nonneg v.y, mul_self_nonneg v.z]
    have hy : v.y = 0 := by nlinarith [mul_self_nonneg v.x, mul_self_nonneg v.y, mul_self_nonneg v.z]
    have hz : v.z = 0 := by nlinarith [mul_self_nonneg v.x, mul_self_nonneg v.y, mul_self_nonneg v.z]
    ext <;> assumption
  · rintro rfl
    simp [Vec3.dot]

lemma Vec3.length_pos_iff (v : Vec3 ℝ) : 0 < Vec3.length realMath v ↔ v ≠ ⟨0, 0, 0⟩ := by
  unfold Vec3.length
  rw [realMath_sqrt, Real.sqrt_pos, ← not_iff_not, not_lt, not_not, ← Vec3.dot_self_eq_zero]
  exact ⟨fun h => le_antisymm h (Vec3.dot_self_nonneg v), fun h => h.le⟩

lemma Vec3.dot_scale_scale (a b : Vec3 ℝ) (s t : ℝ) :
    Vec3.dot (Vec3.scale a s) (Vec3.scale b t) = s * t * Vec3.dot a b := by
  simp only [Vec3.dot, Vec3.scale]
  ring

lemma Vec3.length_scale (v : Vec3 ℝ) (s : ℝ) :
    Vec3.length realMath (Vec3.scale v s) = |s| * Vec3.length realMath v := by
  unfold Vec3.length
  rw [Vec3.dot_scale_scale, realMath_sqrt, realMath_sqrt,
    Real.sqrt_mul (mul_self_nonneg s), Real.sqrt_mul_self_eq_abs]

lemma Vec3.length_of_dot_self_eq_one (v : Vec3 ℝ) (h : Vec3.dot v v = 1) :
    Vec3.length realMath v = 1 := by
  unfold Vec3.length
  rw [h, realMath_sqrt, Real.sqrt_one]

lemma Vec3.normalize_of_dot_self_eq_one (v : Vec3 ℝ) (h : Vec3.dot v v = 1) :
    Vec3.normalize realMath v = v := by
  unfold Vec3.normalize
  rw [h, realMath_sqrt, Real.sqrt_one]
  ext <;> simp [Vec3.scale]

lemma Vec3.dot_normalize_self (v : Vec3 ℝ) (h : v ≠ ⟨0, 0, 0⟩) :
    Vec3.dot (Vec3.normalize realMath v) (Vec3.normalize realMath v) = 1 := by
  have hpos : 0 < Vec3.dot v v :=
    lt_of_le_of_ne (Vec3.dot_self_nonneg v) (fun h0 => h ((Vec3.dot_self_eq_zero v).1 h0.symm))
  unfold Vec3.normalize
  rw [Vec3.dot_scale_scale, realMath_sqrt]
  have hs : Real.sqrt (Vec3.dot v v) * Real.sqrt (Vec3.dot v v) = Vec3.dot v v :=
    Real.mul_self_sqrt hpos.le
  rw [one_div, ← mul_inv, hs]
  exact inv_mul_cancel₀ hpos.ne'

lemma Vec3.length_normalize (v : Vec3 ℝ) (h : v ≠ ⟨0, 0, 0⟩) :
    Vec3.length realMath (Vec3.normalize realMath v) = 1 :=
  Vec3.length_of_dot_self_eq_one _ (Vec3.dot_normalize_self v h)

/-! ## Camera: the keyboard step, mouse look and zoom -/

/-- C1: for every camera state, direction bitmask and `dt`, `processKeyboard`
computes `d` = desired velocity, `v1 = velocity + (d - velocity) * acceleration * dt`,
`v2 = v1 * (1 - friction * dt)`, `v3` = zero if `|v2| < 0.01` and `v2` otherwise,
and returns the state with `velocity = v3` and `position = position + v3 * dt`
(the other members unchanged). -/
theorem processKeyboard_stages (c : Camera ℝ) (direction : Int) (dt : ℝ) :
    let d := Camera.desiredVelocity realMath c direction
    let v1 := Vec3.add c.velocity (Vec3.scale (Vec3.scale (Vec3.sub d c.velocity) c.acceleration) dt)
    let v2 := Vec3.scale v1 (1 - c.friction * dt)
    let v3 := if Vec3.length realMath v2 < 0.01 then (⟨0, 0, 0⟩ : Vec3 ℝ) else v2
    Camera.processKeyboard realMath c direction dt =
      { c with velocity := v3, position := Vec3.add c.position (Vec3.scale v3 dt) } := by
  intro d v1 v2 v3
  unfold Camera.processKeyboard
  simp only [v3, v2, v1, d]
  norm_num only
  split_ifs <;> rfl

/-- C2: with `constrainPitch = true` the new pitch is
`oldPitch + dy * sensitivity` saturated into `[-89, 89]`, hence lies in
`[-89, 89]` for every `dy`, and the new yaw is `oldYaw + dx * sensitivity`;
with `constrainPitch = false` the new pitch is `oldPitch + dy * sensitivity`. -/
theorem processMouseMovement_pitch_yaw (c : Camera ℝ) (dx dy : ℝ) :
    (Camera.processMouseMovement realMath c dx dy true).pitch
        = saturate (c.pitch + dy * c.mouseSensitivity) (-89) 89
      ∧ -89 ≤ (Camera.processMouseMovement realMath c dx dy true).pitch
      ∧ (Camera.processMouseMovement realMath c dx dy true).pitch ≤ 89
      ∧ (Camera.processMouseMovement realMath c dx dy true).yaw = c.yaw + dx * c.mouseSensitivity
      ∧ (Camera.processMouseMovement realMath c dx dy false).pitch
          = c.pitch + dy * c.mouseSensitivity
      ∧ (Camera.processMouseMovement realMath c dx dy false).yaw
          = c.yaw + dx * c.mouseSensitivity := by
  have hp : (Camera.processMouseMovement realMath c dx dy true).pitch
      = saturate (c.pitch + dy * c.mouseSensitivity) (-89) 89 := by
    show clamp (c.pitch + dy * c.mouseSensitivity) (-89.0) 89.0 = _
    rw [clamp_eq_saturate _ _ _ (by norm_num)]
    norm_num
  refine ⟨hp, ?_, ?_, rfl, rfl, rfl⟩
  · rw [hp]; exact (saturate_mem _ _ _ (by norm_num)).1
  · rw [hp]; exact (saturate_mem _ _ _ (by norm_num)).2

/-- C4: `processMouseScroll(dy)` sets the zoom to `oldZoom - dy` saturated into
`[1, 90]`, and after construction followed by any sequence of `processKeyboard`,
`processMouseMovement` and `processMouseScroll` calls the zoom lies in `[1, 90]`. -/
theorem processMouseScroll_zoom_range :
    (∀ (c : Camera ℝ) (dy : ℝ),
        (Camera.processMouseScroll c dy).zoom = saturate (c.zoom - dy) 1 90)
      ∧ ∀ (position up : Vec3 ℝ) (yaw pitch : ℝ) (ops : List (CameraOp ℝ)),
          1 ≤ (Camera.run realMath (Camera.new realMath position up yaw pitch) ops).zoom
            ∧ (Camera.run realMath (Camera.new realMath position up yaw pitch) ops).zoom ≤ 90 := by
  refine ⟨fun c dy => processMouseScroll_zoom c dy, fun position up yaw pitch ops => ?_⟩
  apply run_zoom_mem
  show (1 : ℝ) ≤ 45.0 ∧ (45.0 : ℝ) ≤ 90
  norm_num

/-! ## Camera: desired velocity -/

lemma desiredVelocity_eq (c : Camera ℝ) (direction : Int) :
    Camera.desiredVelocity realMath c direction =
      if Vec3.length realMath (Camera.signedSum c direction) > 0 then
        Vec3.scale (Vec3.normalize realMath (Camera.signedSum c direction)) c.movementSpeed
      else Camera.signedSum c direction := by
  have hsum : (let d0 : Vec3 ℝ := Vec3.splat 0.0
      let d1 := if directionBit direction 0 then Vec3.add d0 c.front else d0
      let d2 := if directionBit direction 1 then Vec3.sub d1 c.front else d1
      let d3 := if directionBit direction 2 then Vec3.sub d2 c.right else d2
      if directionBit direction 3 then Vec3.add d3 c.right else d3)
        = Camera.signedSum c direction := by
    unfold Camera.signedSum
    cases directionBit direction 0 <;> cases directionBit direction 1 <;>
      cases directionBit direction 2 <;> cases directionBit direction 3 <;>
      ext <;> norm_num [Vec3.add, Vec3.sub, Vec3.scale, Vec3.splat] <;> ring
  unfold Camera.desiredVelocity
  simp only at hsum ⊢
  rw [hsum]
  norm_num

lemma signedSum_of_noDirectionBit (c : Camera ℝ) (direction : Int) (h : noDirectionBit direction) :
    Camera.signedSum c direction = ⟨0, 0, 0⟩ := by
  unfold Camera.signedSum
  rw [h 0 (by norm_num), h 1 (by norm_num), h 2 (by norm_num), h 3 (by norm_num)]
  ext <;> simp [Vec3.add, Vec3.scale]

lemma desiredVelocity_of_noDirectionBit (c : Camera ℝ) (direction : Int)
    (h : noDirectionBit direction) :
    Camera.desiredVelocity realMath c direction = ⟨0, 0, 0⟩ := by
  rw [desiredVelocity_eq, signedSum_of_noDirectionBit c direction h, if_neg]
  rw [gt_iff_lt, Vec3.length_pos_iff]
  simp

/-- C5: the desired velocity of `processKeyboard` is zero when no direction bit
is set; when the signed sum `s` of the active basis vectors is non-zero it is
`(s / |s|) * movementSpeed`, and then its length is `movementSpeed` whenever
`movementSpeed ≥ 0`. -/
theorem desiredVelocity_spec (c : Camera ℝ) (direction : Int) :
    (noDirectionBit direction → Camera.desiredVelocity realMath c direction = ⟨0, 0, 0⟩)
      ∧ (Camera.signedSum c direction ≠ ⟨0, 0, 0⟩ →
          Camera.desiredVelocity realMath c direction =
              Vec3.scale (Vec3.scale (Camera.signedSum c direction)
                (1 / Vec3.length realMath (Camera.signedSum c direction))) c.movementSpeed
            ∧ (0 ≤ c.movementSpeed →
                Vec3.length realMath (Camera.desiredVelocity realMath c direction)
                  = c.movementSpeed)) := by
  refine ⟨desiredVelocity_of_noDirectionBit c direction, fun hs => ?_⟩
  have hd : Camera.desiredVelocity realMath c direction =
      Vec3.scale (Vec3.normalize realMath (Camera.signedSum c direction)) c.movementSpeed := by
    rw [desiredVelocity_eq, if_pos]
    exact (Vec3.length_pos_iff _).2 hs
  refine ⟨hd, fun hm => ?_⟩
  rw [hd, Vec3.length_scale, Vec3.length_normalize _ hs, abs_of_nonneg hm, mul_one]

/-- C5 at concrete inputs: for a camera looking along `-Z` with `right = +X`,
the bitmask `Forward|Right` (9) has signed sum `(1, 0, -1)`, and the desired
velocity has length `movementSpeed = 5`. -/
theorem desiredVelocity_spec_witness :
    Camera.signedSum (Camera.lookingForward (⟨0, 0, 0⟩ : Vec3 ℝ)) 9 = ⟨1, 0, -1⟩
      ∧ Vec3.length realMath
          (Camera.desiredVelocity realMath (Camera.lookingForward (⟨0, 0, 0⟩ : Vec3 ℝ)) 9) = 5 := by
  have hs : Camera.signedSum (Camera.lookingForward (⟨0, 0, 0⟩ : Vec3 ℝ)) 9 = ⟨1, 0, -1⟩ := by
    have h0 : directionBit 9 0 = true := by decide
    have h1 : directionBit 9 1 = false := by decide
    have h2 : directionBit 9 2 = false := by decide
    have h3 : directionBit 9 3 = true := by decide
    unfold Camera.signedSum
    rw [h0, h1, h2, h3]
    ext <;> simp [Vec3.add, Vec3.scale, Camera.lookingForward]
  refine ⟨hs, ?_⟩
  have hne : Camera.signedSum (Camera.lookingForward (⟨0, 0, 0⟩ : Vec3 ℝ)) 9 ≠ ⟨0, 0, 0⟩ := by
    rw [hs]
    intro h
    have := congrArg Vec3.x h
    norm_num at this
  exact ((desiredVelocity_spec _ 9).2 hne).2 (by norm_num [Camera.lookingForward])


/-! ## Camera: the velocity of the keyboard step -/

lemma Vec3.length_axis_x (a : ℝ) : Vec3.length realMath ⟨a, 0, 0⟩ = |a| := by
  simp [Vec3.length, Vec3.dot, Real.sqrt_mul_self_eq_abs]

lemma Vec3.length_axis_z (a : ℝ) : Vec3.length realMath ⟨0, 0, a⟩ = |a| := by
  simp [Vec3.length, Vec3.dot, Real.sqrt_mul_self_eq_abs]

lemma processKeyboard_eq (M : Scalar ℝ) (c : Camera ℝ) (direction : Int) (dt : ℝ) :
    Camera.processKeyboard M c direction dt =
      { c with
        velocity :=
          if Vec3.length M (Vec3.scale (Vec3.add c.velocity (Vec3.scale (Vec3.scale
              (Vec3.sub (Camera.desiredVelocity M c direction) c.velocity) c.acceleration) dt))
              (1 - c.friction * dt)) < 0.01
          then ⟨0, 0, 0⟩
          else Vec3.scale (Vec3.add c.velocity (Vec3.scale (Vec3.scale
              (Vec3.sub (Camera.desiredVelocity M c direction) c.velocity) c.acceleration) dt))
              (1 - c.friction * dt)
        position := Vec3.add c.position (Vec3.scale
          (if Vec3.length M (Vec3.scale (Vec3.add c.velocity (Vec3.scale (Vec3.scale
              (Vec3.sub (Camera.desiredVelocity M c direction) c.velocity) c.acceleration) dt))
              (1 - c.friction * dt)) < 0.01
          then ⟨0, 0, 0⟩
          else Vec3.scale (Vec3.add c.velocity (Vec3.scale (Vec3.scale
              (Vec3.sub (Camera.desiredVelocity M c direction) c.velocity) c.acceleration) dt))
              (1 - c.friction * dt)) dt) } := by
  unfold Camera.processKeyboard
  norm_num only
  split_ifs <;> rfl

lemma processKeyboard_idle (c : Camera ℝ) (direction : Int) (dt : ℝ)
    (h : noDirectionBit direction) :
    (Camera.processKeyboard realMath c direction dt).velocity =
      if Vec3.length realMath
          (Vec3.scale c.velocity ((1 - c.acceleration * dt) * (1 - c.friction * dt))) < 0.01
      then ⟨0, 0, 0⟩
      else Vec3.scale c.velocity ((1 - c.acceleration * dt) * (1 - c.friction * dt)) := by
  have hv : Vec3.scale (Vec3.add c.velocity (Vec3.scale (Vec3.scale
      (Vec3.sub (⟨0, 0, 0⟩ : Vec3 ℝ) c.velocity) c.acceleration) dt)) (1 - c.friction * dt)
      = Vec3.scale c.velocity ((1 - c.acceleration * dt) * (1 - c.friction * dt)) := by
    ext <;> simp only [Vec3.scale, Vec3.add, Vec3.sub] <;> ring
  rw [processKeyboard_eq, desiredVelocity_of_noDirectionBit c direction h]
  simp only
  rw [hv]

/-- C6, the claim as stated fails: with acceleration 20, friction 15 and no
direction bit set, a velocity `(0.012, 0, 0)` of length `0.012 ≥ 0.01` is set
to exactly zero by one call with `dt = 0.01`, although the decayed velocity
`velocity * (1 - 20 dt) * (1 - 15 dt) = (0.00816, 0, 0)` is not zero. -/
theorem processKeyboard_idle_snap_counterexample :
    (0.01 : ℝ) ≤ Vec3.length realMath (Camera.lookingForward (⟨0.012, 0, 0⟩ : Vec3 ℝ)).velocity
      ∧ noDirectionBit 0
      ∧ (Camera.processKeyboard realMath (Camera.lookingForward ⟨0.012, 0, 0⟩) 0 0.01).velocity
          = ⟨0, 0, 0⟩
      ∧ Vec3.scale (Camera.lookingForward (⟨0.012, 0, 0⟩ : Vec3 ℝ)).velocity
          ((1 - 20 * 0.01) * (1 - 15 * 0.01)) = ⟨0.00816, 0, 0⟩ := by
  have hno : noDirectionBit 0 := by
    intro k hk
    interval_cases k <;> decide
  refine ⟨?_, hno, ?_, ?_⟩
  · simp only [Camera.lookingForward]
    rw [Vec3.length_axis_x]
    norm_num [abs_of_pos]
  · rw [processKeyboard_idle _ _ _ hno]
    have hw : Vec3.scale (Camera.lookingForward (⟨0.012, 0, 0⟩ : Vec3 ℝ)).velocity
        ((1 - (Camera.lookingForward (⟨0.012, 0, 0⟩ : Vec3 ℝ)).acceleration * 0.01)
          * (1 - (Camera.lookingForward (⟨0.012, 0, 0⟩ : Vec3 ℝ)).friction * 0.01))
        = ⟨0.00816, 0, 0⟩ := by
      ext <;> norm_num [Camera.lookingForward, Vec3.scale]
    rw [hw, Vec3.length_axis_x, if_pos]
    norm_num [abs_of_pos]
  · ext <;> norm_num [Camera.lookingForward, Vec3.scale]

/-- C6 as amended: with no direction bit set, for every state and every `dt`,
the new velocity is `w = velocity * (1 - acceleration*dt) * (1 - friction*dt)`
unless `|w| < 0.01`, in which case it is exactly zero: the snap threshold is
tested on the decayed velocity `w`, not on the velocity before the call. -/
theorem processKeyboard_idle_velocity (c : Camera ℝ) (direction : Int) (dt : ℝ)
    (h : noDirectionBit direction) :
    (Camera.processKeyboard realMath c direction dt).velocity =
      if Vec3.length realMath
          (Vec3.scale c.velocity ((1 - c.acceleration * dt) * (1 - c.friction * dt))) < 0.01
      then ⟨0, 0, 0⟩
      else Vec3.scale c.velocity ((1 - c.acceleration * dt) * (1 - c.friction * dt)) :=
  processKeyboard_idle c direction dt h

/-- C6 as amended, at concrete inputs: from velocity `(1, 0, 0)` with
`dt = 0.01` and bitmask 16 (no direction bit) the new velocity is
`(0.68, 0, 0)`. -/
theorem processKeyboard_idle_velocity_witness :
    noDirectionBit 16
      ∧ (Camera.processKeyboard realMath (Camera.lookingForward ⟨1, 0, 0⟩) 16 0.01).velocity
          = ⟨0.68, 0, 0⟩ := by
  have hno : noDirectionBit 16 := by
    intro k hk
    interval_cases k <;> decide
  refine ⟨hno, ?_⟩
  rw [processKeyboard_idle_velocity _ 16 0.01 hno]
  have hw : Vec3.scale (Camera.lookingForward (⟨1, 0, 0⟩ : Vec3 ℝ)).velocity
      ((1 - (Camera.lookingForward (⟨1, 0, 0⟩ : Vec3 ℝ)).acceleration * 0.01)
        * (1 - (Camera.lookingForward (⟨1, 0, 0⟩ : Vec3 ℝ)).friction * 0.01))
      = ⟨0.68, 0, 0⟩ := by
    ext <;> norm_num [Camera.lookingForward, Vec3.scale]
  rw [hw, Vec3.length_axis_x, if_neg]
  norm_num [abs_of_pos]

/-! ## Camera: holding Forward from rest -/

lemma new_default_eq :
    Camera.new realMath ⟨0, 0, 0⟩ ⟨0, 1, 0⟩ (-90) 0 = Camera.lookingForward ⟨0, 0, 0⟩ := by
  have hyaw : (-90 : ℝ) * (Real.pi / 180) = -(Real.pi / 2) := by ring
  have hfront : Vec3.normalize realMath
      ⟨Real.cos (-90 * (Real.pi / 180)) * Real.cos (0 * (Real.pi / 180)),
        Real.sin (0 * (Real.pi / 180)),
        Real.sin (-90 * (Real.pi / 180)) * Real.cos (0 * (Real.pi / 180))⟩ = ⟨0, 0, -1⟩ := by
    rw [hyaw]
    simp [Vec3.normalize, Vec3.scale, Vec3.dot]
  have hright : Vec3.normalize realMath (Vec3.cross ⟨0, 0, -1⟩ ⟨0, 1, 0⟩) = ⟨1, 0, 0⟩ := by
    simp [Vec3.normalize, Vec3.scale, Vec3.dot, Vec3.cross]
  have hup : Vec3.normalize realMath (Vec3.cross ⟨1, 0, 0⟩ ⟨0, 0, -1⟩) = ⟨0, 1, 0⟩ := by
    simp [Vec3.normalize, Vec3.scale, Vec3.dot, Vec3.cross]
  unfold Camera.new Camera.updateCameraVectors Camera.lookingForward
  simp only [realMath_cos, realMath_sin, realMath_radians]
  rw [hfront, hright, hup]
  ext <;> norm_num [Vec3.splat]

lemma lookingForward_rig (v : Vec3 ℝ) : Camera.ForwardRig (Camera.lookingForward v) :=
  ⟨rfl, rfl, rfl, rfl⟩

lemma processKeyboard_rig (c : Camera ℝ) (direction : Int) (dt : ℝ) (h : Camera.ForwardRig c) :
    Camera.ForwardRig (Camera.processKeyboard realMath c direction dt) := by
  rw [processKeyboard_eq]
  exact h

lemma desiredVelocity_forward (c : Camera ℝ) (h : Camera.ForwardRig c) :
    Camera.desiredVelocity realMath c 1 = ⟨0, 0, -5⟩ := by
  obtain ⟨hf, hs, -, -⟩ := h
  have h0 : directionBit 1 0 = true := by decide
  have h1 : directionBit 1 1 = false := by decide
  have h2 : directionBit 1 2 = false := by decide
  have h3 : directionBit 1 3 = false := by decide
  have hsum : Camera.signedSum c 1 = ⟨0, 0, -1⟩ := by
    unfold Camera.signedSum
    rw [h0, h1, h2, h3, hf]
    ext <;> simp [Vec3.add, Vec3.scale]
  have hone : Vec3.dot (⟨0, 0, -1⟩ : Vec3 ℝ) ⟨0, 0, -1⟩ = 1 := by simp [Vec3.dot]
  rw [desiredVelocity_eq, hsum, if_pos, Vec3.normalize_of_dot_self_eq_one _ hone, hs]
  · ext <;> simp [Vec3.scale]
  · rw [Vec3.length_of_dot_self_eq_one _ hone]
    exact one_pos

lemma processKeyboard_forward_velocity (c : Camera ℝ) (dt z w : ℝ) (h : Camera.ForwardRig c)
    (hv : c.velocity = ⟨0, 0, z⟩) (hw : w = (z + (-5 - z) * 20 * dt) * (1 - 15 * dt)) :
    (Camera.processKeyboard realMath c 1 dt).velocity =
      if |w| < 0.01 then ⟨0, 0, 0⟩ else ⟨0, 0, w⟩ := by
  have hs : Vec3.scale (Vec3.add c.velocity (Vec3.scale (Vec3.scale
      (Vec3.sub (⟨0, 0, -5⟩ : Vec3 ℝ) c.velocity) c.acceleration) dt)) (1 - c.friction * dt)
      = ⟨0, 0, w⟩ := by
    rw [hv, h.2.2.1, h.2.2.2, hw]
    ext <;> simp [Vec3.scale, Vec3.add, Vec3.sub]
  rw [processKeyboard_eq, desiredVelocity_forward c h]
  simp only
  rw [hs, Vec3.length_axis_z]

lemma repeatKeyboard_succ (c : Camera ℝ) (direction : Int) (dt : ℝ) (n : Nat) :
    Camera.repeatKeyboard realMath c direction dt (n + 1) =
      Camera.processKeyboard realMath (Camera.repeatKeyboard realMath c direction dt n)
        direction dt := by
  unfold Camera.repeatKeyboard
  rw [Function.iterate_succ_apply']

lemma repeatKeyboard_rig (c : Camera ℝ) (direction : Int) (dt : ℝ) (n : Nat)
    (h : Camera.ForwardRig c) :
    Camera.ForwardRig (Camera.repeatKeyboard realMath c direction dt n) := by
  induction n with
  | zero => exact h
  | succ n ih =>
    rw [repeatKeyboard_succ]
    exact processKeyboard_rig _ _ _ ih

lemma repeatKeyboard_unstable (n : Nat) :
    (Camera.repeatKeyboard realMath (Camera.lookingForward ⟨0, 0, 0⟩) 1 1 n).velocity
      = ⟨0, 0, 1400 * (266 ^ n - 1) / 265⟩ := by
  induction n with
  | zero =>
    show (⟨0, 0, 0⟩ : Vec3 ℝ) = _
    ext <;> norm_num
  | succ n ih =>
    have hpow : (1 : ℝ) ≤ 266 ^ n := one_le_pow₀ (by norm_num)
    have hz : 1400 * (266 ^ (n + 1) - 1) / (265 : ℝ) =
        (1400 * (266 ^ n - 1) / 265 + (-5 - 1400 * (266 ^ n - 1) / 265) * 20 * 1) * (1 - 15 * 1) := by
      rw [pow_succ]; field_simp; ring
    have hpos : (1400 : ℝ) ≤ 1400 * (266 ^ (n + 1) - 1) / 265 := by
      rw [pow_succ, le_div_iff₀ (by norm_num)]
      nlinarith
    rw [repeatKeyboard_succ, processKeyboard_forward_velocity _ 1 _ _
      (repeatKeyboard_rig _ 1 1 n (lookingForward_rig _)) ih hz, if_neg]
    rw [abs_of_nonneg (by linarith)]
    norm_num
    linarith

lemma approachInv_le_five (dt s : ℝ) (hdt0 : 0 < dt) (hdt : dt ≤ 1 / 20)
    (h : approachInv dt s) : s ≤ 5 := by
  obtain ⟨-, hfix, -⟩ := h
  have hgap : 0 < 1 - (1 - 20 * dt) * (1 - 15 * dt) := by nlinarith
  by_contra hlt
  push_neg at hlt
  nlinarith [mul_pos hgap (sub_pos.2 hlt)]

lemma processKeyboard_forward_stable (c : Camera ℝ) (dt s : ℝ) (hdt0 : 0 < dt)
    (hdt : dt ≤ 1 / 20) (h : Camera.ForwardRig c) (hv : c.velocity = ⟨0, 0, -s⟩)
    (hinv : approachInv dt s) :
    ∃ s', (Camera.processKeyboard realMath c 1 dt).velocity = ⟨0, 0, -s'⟩ ∧ s ≤ s' ∧
      approachInv dt s' := by
  obtain ⟨hs0, hfix, hsnap⟩ := hinv
  have ha : 0 ≤ 1 - 20 * dt := by linarith
  have hf : 0 < 1 - 15 * dt := by linarith
  have hα : 0 ≤ (1 - 20 * dt) * (1 - 15 * dt) := mul_nonneg ha hf.le
  have hα1 : (1 - 20 * dt) * (1 - 15 * dt) ≤ 1 := by nlinarith
  have hw : -((1 - 20 * dt) * (1 - 15 * dt) * s + 100 * dt * (1 - 15 * dt))
      = (-s + (-5 - -s) * 20 * dt) * (1 - 15 * dt) := by ring
  have hβ : 0 ≤ 100 * dt * (1 - 15 * dt) := by positivity
  have hw0 : 0 ≤ (1 - 20 * dt) * (1 - 15 * dt) * s + 100 * dt * (1 - 15 * dt) := by positivity
  have hmono : s ≤ (1 - 20 * dt) * (1 - 15 * dt) * s + 100 * dt * (1 - 15 * dt) := by linarith
  rw [processKeyboard_forward_velocity c dt (-s) _ h hv hw, abs_neg, abs_of_nonneg hw0]
  split_ifs with hlt
  · refine ⟨0, by simp, ?_, le_refl _, by simpa using hβ, Or.inl rfl⟩
    rcases hsnap with h0 | h1
    · exact h0.le
    · exact absurd (lt_of_le_of_lt (le_trans h1 hmono) hlt) (lt_irrefl _)
  · refine ⟨_, rfl, hmono, hw0, ?_, Or.inr (not_lt.1 hlt)⟩
    nlinarith [mul_le_mul_of_nonneg_left hfix hα, mul_nonneg hα hs0]

lemma repeatKeyboard_stable (dt : ℝ) (hdt0 : 0 < dt) (hdt : dt ≤ 1 / 20) (n : Nat) :
    ∃ s, (Camera.repeatKeyboard realMath (Camera.lookingForward ⟨0, 0, 0⟩) 1 dt n).velocity
        = ⟨0, 0, -s⟩ ∧ approachInv dt s := by
  induction n with
  | zero =>
    refine ⟨0, ?_, le_refl _, ?_, Or.inl rfl⟩
    · show (⟨0, 0, 0⟩ : Vec3 ℝ) = _
      ext <;> simp
    · have hf : 0 < 1 - 15 * dt := by linarith
      have : 0 ≤ 100 * dt * (1 - 15 * dt) := by positivity
      simpa using this
  | succ n ih =>
    obtain ⟨s, hv, hinv⟩ := ih
    obtain ⟨s', hv', -, hinv'⟩ := processKeyboard_forward_stable _ dt s hdt0 hdt
      (repeatKeyboard_rig _ 1 dt n (lookingForward_rig _)) hv hinv
    exact ⟨s', by rw [repeatKeyboard_succ]; exact hv', hinv'⟩

lemma repeatKeyboard_approach (dt : ℝ) (hdt0 : 0 < dt) (hdt : dt ≤ 1 / 20) (n : Nat) :
    (Camera.repeatKeyboard realMath (Camera.lookingForward ⟨0, 0, 0⟩) 1 dt n).velocity.x = 0
      ∧ (Camera.repeatKeyboard realMath (Camera.lookingForward ⟨0, 0, 0⟩) 1 dt n).velocity.y = 0
      ∧ (Camera.repeatKeyboard realMath (Camera.lookingForward ⟨0, 0, 0⟩) 1 dt n).velocity.z ≤ 0
      ∧ Vec3.length realMath
          (Camera.repeatKeyboard realMath (Camera.lookingForward ⟨0, 0, 0⟩) 1 dt n).velocity ≤ 5
      ∧ Vec3.length realMath
          (Camera.repeatKeyboard realMath (Camera.lookingForward ⟨0, 0, 0⟩) 1 dt n).velocity
        ≤ Vec3.length realMath
          (Camera.repeatKeyboard realMath (Camera.lookingForward ⟨0, 0, 0⟩) 1 dt (n + 1)).velocity := by
  obtain ⟨s, hv, hinv⟩ := repeatKeyboard_stable dt hdt0 hdt n
  obtain ⟨s', hv', hle, hinv'⟩ := processKeyboard_forward_stable _ dt s hdt0 hdt
    (repeatKeyboard_rig _ 1 dt n (lookingForward_rig _)) hv hinv
  rw [repeatKeyboard_succ, hv', hv, Vec3.length_axis_z, Vec3.length_axis_z, abs_neg, abs_neg,
    abs_of_nonneg hinv.1, abs_of_nonneg hinv'.1]
  exact ⟨rfl, rfl, by simpa using hinv.1, approachInv_le_five dt s hdt0 hdt hinv, hle⟩

/-- C7, the claim as stated fails: for the camera constructed at the origin with
yaw -90 and pitch 0, one call `processKeyboard(Forward, dt = 1.0)` from rest
yields the velocity `(0, 0, 1400)`: it points along `+Z` and its length is
1400, not at most 5. -/
theorem processKeyboard_forward_unit_step_counterexample :
    (Camera.repeatKeyboard realMath (Camera.new realMath ⟨0, 0, 0⟩ ⟨0, 1, 0⟩ (-90) 0) 1 1 1).velocity
        = ⟨0, 0, 1400⟩
      ∧ ¬ Vec3.length realMath
          (Camera.repeatKeyboard realMath (Camera.new realMath ⟨0, 0, 0⟩ ⟨0, 1, 0⟩ (-90) 0)
            1 1 1).velocity ≤ 5 := by
  have hv : (Camera.repeatKeyboard realMath (Camera.new realMath ⟨0, 0, 0⟩ ⟨0, 1, 0⟩ (-90) 0)
      1 1 1).velocity = ⟨0, 0, 1400⟩ := by
    rw [new_default_eq, repeatKeyboard_unstable 1]
    ext <;> norm_num
  refine ⟨hv, ?_⟩
  rw [hv, Vec3.length_axis_z]
  norm_num

/-- C7 as amended: for the camera constructed at the origin with yaw -90 and
pitch 0 (front `(0,0,-1)`, acceleration 20, friction 15, speed 5), holding
Forward from rest: (a) with `dt = 1.0` the velocity after `n` calls is
`(0, 0, 1400 (266^n - 1) / 265)`, along `+Z` and growing without bound;
(b) for every step `0 < dt ≤ 1/20` and every `n`, the velocity after `n` calls
points along `-Z`, its length is at most 5, and the length after call `n + 1`
is at least the length after call `n`. -/
theorem processKeyboard_forward_approach :
    (Camera.new realMath ⟨0, 0, 0⟩ ⟨0, 1, 0⟩ (-90) 0).front = ⟨0, 0, -1⟩
      ∧ (∀ n : Nat,
          (Camera.repeatKeyboard realMath (Camera.new realMath ⟨0, 0, 0⟩ ⟨0, 1, 0⟩ (-90) 0)
            1 1 n).velocity = ⟨0, 0, 1400 * (266 ^ n - 1) / 265⟩)
      ∧ ∀ dt : ℝ, 0 < dt → dt ≤ 1 / 20 → ∀ n : Nat,
          (Camera.repeatKeyboard realMath (Camera.new realMath ⟨0, 0, 0⟩ ⟨0, 1, 0⟩ (-90) 0)
              1 dt n).velocity.x = 0
            ∧ (Camera.repeatKeyboard realMath (Camera.new realMath ⟨0, 0, 0⟩ ⟨0, 1, 0⟩ (-90) 0)
              1 dt n).velocity.y = 0
            ∧ (Camera.repeatKeyboard realMath (Camera.new realMath ⟨0, 0, 0⟩ ⟨0, 1, 0⟩ (-90) 0)
              1 dt n).velocity.z ≤ 0
            ∧ Vec3.length realMath
                (Camera.repeatKeyboard realMath (Camera.new realMath ⟨0, 0, 0⟩ ⟨0, 1, 0⟩ (-90) 0)
                  1 dt n).velocity ≤ 5
            ∧ Vec3.length realMath
                (Camera.repeatKeyboard realMath (Camera.new realMath ⟨0, 0, 0⟩ ⟨0, 1, 0⟩ (-90) 0)
                  1 dt n).velocity
              ≤ Vec3.length realMath
                (Camera.repeatKeyboard realMath (Camera.new realMath ⟨0, 0, 0⟩ ⟨0, 1, 0⟩ (-90) 0)
                  1 dt (n + 1)).velocity := by
  rw [new_default_eq]
  exact ⟨rfl, repeatKeyboard_unstable, repeatKeyboard_approach⟩

/-- C7 as amended, at concrete inputs: with `dt = 1/60` the first call from
rest gives the velocity `(0, 0, -1.25)`, of length `1.25 ≤ 5`. -/
theorem processKeyboard_forward_approach_witness :
    (Camera.repeatKeyboard realMath (Camera.new realMath ⟨0, 0, 0⟩ ⟨0, 1, 0⟩ (-90) 0)
        1 (1 / 60) 1).velocity = ⟨0, 0, -1.25⟩
      ∧ Vec3.length realMath
          (Camera.repeatKeyboard realMath (Camera.new realMath ⟨0, 0, 0⟩ ⟨0, 1, 0⟩ (-90) 0)
            1 (1 / 60) 1).velocity ≤ 5 := by
  refine ⟨?_, (processKeyboard_forward_approach.2.2 (1 / 60) (by norm_num) (by norm_num) 1).2.2.2.1⟩
  rw [new_default_eq, repeatKeyboard_succ]
  show (Camera.processKeyboard realMath (Camera.lookingForward ⟨0, 0, 0⟩) 1 (1 / 60)).velocity = _
  have hw : (-1.25 : ℝ) = (0 + (-5 - 0) * 20 * (1 / 60)) * (1 - 15 * (1 / 60)) := by norm_num
  rw [processKeyboard_forward_velocity _ (1 / 60) 0 _ (lookingForward_rig _) rfl hw, if_neg]
  rw [abs_of_neg (by norm_num)]
  norm_num

/-! ## Camera: the orientation frame -/

lemma Vec3.dot_direction (a b : ℝ) :
    Vec3.dot (⟨Real.cos a * Real.cos b, Real.sin b, Real.sin a * Real.cos b⟩ : Vec3 ℝ)
      ⟨Real.cos a * Real.cos b, Real.sin b, Real.sin a * Real.cos b⟩ = 1 := by
  simp only [Vec3.dot]
  linear_combination (Real.cos b) ^ 2 * Real.sin_sq_add_cos_sq a + Real.sin_sq_add_cos_sq b

lemma realMath_exactTrig : Scalar.ExactTrig realMath := ⟨rfl, rfl, rfl⟩

@[simp] lemma glmMath_radians (x : ℝ) :
    glmMath.radians x = x * 0.01745329251994329576923690768489 := rfl

lemma exactTrig_normalize (M : Scalar ℝ) (hM : M.ExactTrig) (v : Vec3 ℝ) :
    Vec3.normalize M v = Vec3.normalize realMath v := by
  unfold Vec3.normalize
  rw [hM.1, realMath_sqrt]

lemma exactTrig_length (M : Scalar ℝ) (hM : M.ExactTrig) (v : Vec3 ℝ) :
    Vec3.length M v = Vec3.length realMath v := by
  unfold Vec3.length
  rw [hM.1, realMath_sqrt]

lemma exactTrig_orthonormal (M : Scalar ℝ) (hM : M.ExactTrig) (c : Camera ℝ) :
    Camera.Orthonormal M c ↔ Camera.Orthonormal realMath c := by
  unfold Camera.Orthonormal
  rw [exactTrig_length M hM, exactTrig_length M hM, exactTrig_length M hM]

lemma updateCameraVectors_front (M : Scalar ℝ) (hM : M.ExactTrig) (c : Camera ℝ) :
    (Camera.updateCameraVectors M c).front =
      ⟨Real.cos (M.radians c.yaw) * Real.cos (M.radians c.pitch),
        Real.sin (M.radians c.pitch),
        Real.sin (M.radians c.yaw) * Real.cos (M.radians c.pitch)⟩ := by
  show Vec3.normalize M ⟨M.cos (M.radians c.yaw) * M.cos (M.radians c.pitch),
    M.sin (M.radians c.pitch), M.sin (M.radians c.yaw) * M.cos (M.radians c.pitch)⟩ = _
  rw [exactTrig_normalize M hM, hM.2.1, hM.2.2]
  exact Vec3.normalize_of_dot_self_eq_one _ (Vec3.dot_direction _ _)

lemma updateCameraVectors_right (M : Scalar ℝ) (c : Camera ℝ) :
    (Camera.updateCameraVectors M c).right =
      Vec3.normalize M (Vec3.cross (Camera.updateCameraVectors M c).front c.worldUp) := rfl

lemma current_right (M : Scalar ℝ) (hM : M.ExactTrig) (c : Camera ℝ)
    (h : Camera.VectorsCurrent M c) :
    c.right = Vec3.normalize realMath (Vec3.cross c.front c.worldUp) := by
  rw [h.2.1, updateCameraVectors_right, ← h.1, exactTrig_normalize M hM]

/-- A camera whose front is parallel to world-up has the zero vector as right
(`normalize` of the zero cross product), so the frame is not orthonormal. -/
lemma current_not_orthonormal (M : Scalar ℝ) (hM : M.ExactTrig) (c : Camera ℝ)
    (h : Camera.VectorsCurrent M c) (hcross : Vec3.cross c.front c.worldUp = ⟨0, 0, 0⟩) :
    ¬ Camera.Orthonormal M c := by
  rw [exactTrig_orthonormal M hM]
  intro ho
  have hlen := ho.2.1
  rw [current_right M hM c h, hcross] at hlen
  simp [Vec3.length, Vec3.normalize, Vec3.scale, Vec3.dot] at hlen

lemma cos_radians_ne_zero (pitch : ℝ) (hlo : -89 ≤ pitch) (hhi : pitch ≤ 89) :
    Real.cos (pitch * (Real.pi / 180)) ≠ 0 := by
  have hpi := Real.pi_pos
  apply ne_of_gt
  apply Real.cos_pos_of_mem_Ioo
  constructor <;> nlinarith

/-- The cosine has no rational zero: its zeros are the odd multiples of `π / 2`,
and `π` is irrational. -/
lemma cos_rational_ne_zero (q : ℚ) : Real.cos (q : ℝ) ≠ 0 := by
  intro h
  obtain ⟨k, hk⟩ := Real.cos_eq_zero_iff.1 h
  have hodd : (2 * (k : ℝ) + 1) ≠ 0 := by
    have hk0 : (2 * k + 1 : ℤ) ≠ 0 := by omega
    exact_mod_cast hk0
  refine irrational_pi ⟨2 * q / (2 * k + 1), ?_⟩
  push_cast
  rw [div_eq_iff hodd, hk]
  ring

/-- With the conversion of GLM the cosine of a rational pitch is never zero. -/
lemma glm_cos_radians_rational_ne_zero (pitch : ℝ) (hp : IsRational pitch) :
    Real.cos (glmMath.radians pitch) ≠ 0 := by
  obtain ⟨q, rfl⟩ := hp
  have hq : glmMath.radians (q : ℝ)
      = ((q * (1745329251994329576923690768489 / 100000000000000000000000000000000) : ℚ) :
          ℝ) := by
    rw [glmMath_radians]
    push_cast
    norm_num
  rw [hq]
  exact cos_rational_ne_zero _

lemma updateCameraVectors_current (M : Scalar ℝ) (c : Camera ℝ) :
    Camera.VectorsCurrent M (Camera.updateCameraVectors M c) :=
  ⟨rfl, rfl, rfl⟩

/-- The exact conversion `π / 180` has a singular pitch that the conversion of
GLM does not have: with `realMath` the default camera after
`processMouseMovement(0, 900, false)` has pitch 90, `cos(radians(90)) = 0`,
front `(0, 1, 0)` parallel to world-up, and no orthonormal frame.  With
`glmMath` the same pitch gives `cos(radians(90)) ≠ 0`. -/
lemma realMath_singular_pitch :
    (Camera.processMouseMovement realMath (Camera.new realMath ⟨0, 0, 3⟩ ⟨0, 1, 0⟩ (-90) 0)
        0 900 false).front = ⟨0, 1, 0⟩
      ∧ ¬ Camera.Orthonormal realMath
          (Camera.processMouseMovement realMath (Camera.new realMath ⟨0, 0, 3⟩ ⟨0, 1, 0⟩ (-90) 0)
            0 900 false)
      ∧ Real.cos (realMath.radians 90) = 0
      ∧ Real.cos (glmMath.radians 90) ≠ 0 := by
  have hpitch : (Camera.processMouseMovement realMath
      (Camera.new realMath ⟨0, 0, 3⟩ ⟨0, 1, 0⟩ (-90) 0) 0 900 false).pitch = 90 := by
    show (0 : ℝ) + 900 * 0.1 = 90
    norm_num
  have hcur : Camera.VectorsCurrent realMath (Camera.processMouseMovement realMath
      (Camera.new realMath ⟨0, 0, 3⟩ ⟨0, 1, 0⟩ (-90) 0) 0 900 false) :=
    updateCameraVectors_current realMath _
  have hquarter : (90 : ℝ) * (Real.pi / 180) = Real.pi / 2 := by ring
  have hfront : (Camera.processMouseMovement realMath
      (Camera.new realMath ⟨0, 0, 3⟩ ⟨0, 1, 0⟩ (-90) 0) 0 900 false).front = ⟨0, 1, 0⟩ := by
    rw [hcur.1, updateCameraVectors_front realMath realMath_exactTrig, hpitch,
      realMath_radians, realMath_radians, hquarter]
    simp
  refine ⟨hfront, ?_, ?_, glm_cos_radians_rational_ne_zero 90 ⟨90, by norm_num⟩⟩
  · apply current_not_orthonormal realMath realMath_exactTrig _ hcur
    rw [hfront]
    show Vec3.cross (⟨0, 1, 0⟩ : Vec3 ℝ) ⟨0, 1, 0⟩ = _
    simp [Vec3.cross]
  · rw [realMath_radians, hquarter, Real.cos_pi_div_two]

lemma length_flatMap_const {α β : Type} (l : List α) (f : α → List β) (k : Nat)
    (h : ∀ a, a ∈ l → (f a).length = k) : (l.flatMap f).length = l.length * k := by
  induction l with
  | nil => simp
  | cons a l ih =>
    rw [List.flatMap_cons, List.length_append, h a (List.mem_cons_self a l),
      ih (fun b hb => h b (List.mem_cons_of_mem a hb)), List.length_cons]
    ring

lemma length_forRange (n : Int) : (forRange n).length = n.toNat := by
  simp [forRange]

lemma mem_forRange (n i : Int) : i ∈ forRange n ↔ 0 ≤ i ∧ i < n := by
  unfold forRange
  rw [List.mem_map]
  constructor
  · rintro ⟨k, hk, rfl⟩
    rw [List.mem_range] at hk
    refine ⟨Int.ofNat_nonneg k, ?_⟩
    have : (k : Int) < (n.toNat : Int) := Int.ofNat_lt.2 hk
    exact lt_of_lt_of_le this (by rw [Int.toNat_of_nonneg (by omega)])
  · rintro ⟨h0, hn⟩
    refine ⟨i.toNat, ?_, Int.toNat_of_nonneg h0⟩
    rw [List.mem_range]
    omega

lemma createSphereWith_meshes {K : Type} [LinearOrderedField K] (M : Scalar K) (pi : K)
    (segments : Int) :
    (Model.createSphereWith M pi segments).meshes =
      [⟨(forRange (segments + 1)).flatMap fun y =>
          (forRange (segments + 1)).map fun x => sphereVertex M pi segments x y,
        (sphereIndexValues segments).map Int.toNat⟩] := rfl

lemma sphere_vertices_length {K : Type} [LinearOrderedField K] (M : Scalar K) (pi : K)
    (segments : Int) :
    ((forRange (segments + 1)).flatMap fun y =>
        (forRange (segments + 1)).map fun x => sphereVertex M pi segments x y).length
      = (segments + 1).toNat * (segments + 1).toNat := by
  rw [length_flatMap_const _ _ (segments + 1).toNat, length_forRange]
  intro y _
  rw [List.length_map, length_forRange]

lemma sphereIndexValues_length (segments : Int) :
    (sphereIndexValues segments).length = segments.toNat * (segments.toNat * 6) := by
  unfold sphereIndexValues
  rw [length_flatMap_const _ _ (segments.toNat * 6), length_forRange]
  intro y _
  rw [length_flatMap_const _ _ 6, length_forRange]
  intro x _
  rfl

lemma mem_sphereIndexValues (segments v : Int) (h : v ∈ sphereIndexValues segments) :
    ∃ x y : Int, 0 ≤ x ∧ x < segments ∧ 0 ≤ y ∧ y < segments ∧
      (v = y * (segments + 1) + x ∨ v = y * (segments + 1) + x + 1 ∨
        v = y * (segments + 1) + x + segments + 1 ∨
        v = y * (segments + 1) + x + segments + 1 + 1) := by
  unfold sphereIndexValues at h
  rw [List.mem_flatMap] at h
  obtain ⟨y, hy, h⟩ := h
  rw [List.mem_flatMap] at h
  obtain ⟨x, hx, h⟩ := h
  rw [mem_forRange] at hx hy
  refine ⟨x, y, hx.1, hx.2, hy.1, hy.2, ?_⟩
  simp only [sphereCell, List.mem_cons, List.mem_singleton, List.not_mem_nil, or_false] at h
  rcases h with h | h | h | h | h | h <;> simp [h]

lemma sphereIndexValues_bounds (segments v : Int) (h : v ∈ sphereIndexValues segments) :
    0 ≤ v ∧ v ≤ segments ^ 2 + 2 * segments := by
  obtain ⟨x, y, hx0, hx, hy0, hy, hv⟩ := mem_sphereIndexValues segments v h
  have hs : 0 < segments := by omega
  have hy1 : y * (segments + 1) ≤ (segments - 1) * (segments + 1) :=
    mul_le_mul_of_nonneg_right (by omega) (by omega)
  have hy2 : 0 ≤ y * (segments + 1) := mul_nonneg hy0 (by omega)
  have hsq : (segments - 1) * (segments + 1) = segments ^ 2 - 1 := by ring
  rcases hv with rfl | rfl | rfl | rfl <;> constructor <;> omega

lemma sphere_max_index_mem (segments : Int) (h : 1 ≤ segments) :
    segments ^ 2 + 2 * segments ∈ sphereIndexValues segments := by
  unfold sphereIndexValues
  rw [List.mem_flatMap]
  refine ⟨segments - 1, (mem_forRange _ _).2 ⟨by omega, by omega⟩, ?_⟩
  rw [List.mem_flatMap]
  refine ⟨segments - 1, (mem_forRange _ _).2 ⟨by omega, by omega⟩, ?_⟩
  have hv : segments ^ 2 + 2 * segments
      = (segments - 1) * (segments + 1) + (segments - 1) + segments + 1 + 1 := by ring
  simp only [sphereCell, List.mem_cons]
  exact Or.inr (Or.inr (Or.inr (Or.inr (Or.inl hv))))

lemma sphereVertex_position_dot (pi : ℝ) (segments x y : Int) :
    Vec3.dot (sphereVertex realMath pi segments x y).position
      (sphereVertex realMath pi segments x y).position = 1 / 4 := by
  have h2 : (2.0 : ℝ) = 2 := by norm_num
  have h5 : (0.5 : ℝ) = 1 / 2 := by norm_num
  simp only [sphereVertex, Vec3.dot, realMath_cos, realMath_sin, h2, h5]
  linear_combination
    (1 / 4 * Real.sin ((y : ℝ) / (segments : ℝ) * pi) ^ 2)
        * Real.sin_sq_add_cos_sq ((x : ℝ) / (segments : ℝ) * 2 * pi)
      + 1 / 4 * Real.sin_sq_add_cos_sq ((y : ℝ) / (segments : ℝ) * pi)

lemma sqrt_quarter : Real.sqrt (1 / 4) = 1 / 2 := by
  have h : (1 / 4 : ℝ) = 1 / 2 * (1 / 2) := by norm_num
  rw [h, Real.sqrt_mul_self (by norm_num)]

lemma sphereVertex_spec (pi : ℝ) (segments x y : Int) :
    Vec3.length realMath (sphereVertex realMath pi segments x y).position = 0.5
      ∧ (sphereVertex realMath pi segments x y).normal =
          Vec3.scale (sphereVertex realMath pi segments x y).position
            (1 / Vec3.length realMath (sphereVertex realMath pi segments x y).position)
      ∧ (sphereVertex realMath pi segments x y).normal =
          Vec3.scale (sphereVertex realMath pi segments x y).position 2 := by
  have hlen : Vec3.length realMath (sphereVertex realMath pi segments x y).position = 1 / 2 := by
    unfold Vec3.length
    rw [sphereVertex_position_dot, realMath_sqrt, sqrt_quarter]
  have hnormal : (sphereVertex realMath pi segments x y).normal =
      Vec3.scale (sphereVertex realMath pi segments x y).position
        (1 / Vec3.length realMath (sphereVertex realMath pi segments x y).position) := rfl
  refine ⟨by rw [hlen]; norm_num, hnormal, ?_⟩
  rw [hnormal, hlen]
  norm_num

lemma mem_sphere_vertices (pi : ℝ) (segments : Int) (v : Vertex ℝ)
    (h : v ∈ (forRange (segments + 1)).flatMap fun y =>
      (forRange (segments + 1)).map fun x => sphereVertex realMath pi segments x y) :
    ∃ x y : Int, v = sphereVertex realMath pi segments x y := by
  rw [List.mem_flatMap] at h
  obtain ⟨y, -, h⟩ := h
  rw [List.mem_map] at h
  obtain ⟨x, -, h⟩ := h
  exact ⟨x, y, h.symm⟩

lemma createSphereWith_vertex_spec (pi : ℝ) (segments : Int) (mesh : Mesh ℝ)
    (hmesh : mesh ∈ (Model.createSphereWith realMath pi segments).meshes) (v : Vertex ℝ)
    (hv : v ∈ mesh.vertices) :
    Vec3.length realMath v.position = 0.5
      ∧ v.normal = Vec3.scale v.position (1 / Vec3.length realMath v.position)
      ∧ v.normal = Vec3.scale v.position 2 := by
  rw [createSphereWith_meshes, List.mem_singleton] at hmesh
  subst hmesh
  obtain ⟨x, y, rfl⟩ := mem_sphere_vertices pi segments v hv
  exact sphereVertex_spec pi segments x y

/-- C8: for every `segments ≥ 0`, `createSphere(segments)` builds a single mesh
with exactly `(segments + 1)^2` vertices and exactly `6 * segments^2` indices. -/
theorem createSphere_counts (segments : Int) (h : 0 ≤ segments) :
    ∃ mesh : Mesh ℝ, (Model.createSphere realMath segments).meshes = [mesh]
      ∧ (mesh.vertices.length : Int) = (segments + 1) ^ 2
      ∧ (mesh.indices.length : Int) = 6 * segments ^ 2 := by
  refine ⟨_, createSphereWith_meshes realMath _ segments, ?_, ?_⟩
  · rw [sphere_vertices_length]
    push_cast
    rw [Int.toNat_of_nonneg (by omega)]
    ring
  · simp only [List.length_map]
    rw [sphereIndexValues_length]
    push_cast
    rw [Int.toNat_of_nonneg h]
    ring

/-- C8 at a concrete input: `createSphere(2)` has 9 vertices and 24 indices. -/
theorem createSphere_counts_witness :
    ∃ mesh : Mesh ℝ, (Model.createSphere realMath 2).meshes = [mesh]
      ∧ (mesh.vertices.length : Int) = (2 + 1) ^ 2
      ∧ (mesh.indices.length : Int) = 6 * 2 ^ 2 :=
  createSphere_counts 2 (by norm_num)

/-- C9: every index emitted by the generators refers to an existing vertex.
For every `segments ≥ 1` each `int` value pushed by `createSphere(segments)` is
`≥ 0` and `< (segments + 1)^2`, the largest one is `segments^2 + 2 * segments`,
and every stored index is below the mesh's vertex count (for `segments ≤ 46339`
every value also fits an `int`); every index of `createCube()` is `< 24` and
every index of `createPlane(size)` is `< 4`, the vertex counts of these meshes. -/
theorem generated_indices_in_range :
    (∀ segments : Int, 1 ≤ segments →
        (∀ v, v ∈ sphereIndexValues segments → 0 ≤ v ∧ v < (segments + 1) ^ 2)
          ∧ segments ^ 2 + 2 * segments ∈ sphereIndexValues segments
          ∧ (∀ v, v ∈ sphereIndexValues segments → v ≤ segments ^ 2 + 2 * segments)
          ∧ (∀ mesh, mesh ∈ (Model.createSphere realMath segments).meshes →
              ∀ i, i ∈ mesh.indices → i < mesh.vertices.length)
          ∧ (segments ≤ 46339 → ∀ v, v ∈ sphereIndexValues segments → v ≤ 2147483647))
      ∧ (∀ mesh, mesh ∈ (Model.createCube : Model ℝ).meshes →
          mesh.vertices.length = 24 ∧ ∀ i, i ∈ mesh.indices → i < 24)
      ∧ (∀ (size : ℝ) (mesh : Mesh ℝ), mesh ∈ (Model.createPlane size).meshes →
          mesh.vertices.length = 4 ∧ ∀ i, i ∈ mesh.indices → i < 4) := by
  refine ⟨fun segments hs => ⟨fun v hv => ?_, sphere_max_index_mem segments hs,
    fun v hv => (sphereIndexValues_bounds segments v hv).2, fun mesh hmesh i hi => ?_,
    fun hle v hv => ?_⟩, fun mesh hmesh => ?_, fun size mesh hmesh => ?_⟩
  · obtain ⟨h0, hmax⟩ := sphereIndexValues_bounds segments v hv
    refine ⟨h0, ?_⟩
    have : (segments + 1) ^ 2 = segments ^ 2 + 2 * segments + 1 := by ring
    omega
  · have hm : mesh ∈ (Model.createSphereWith realMath 3.14159265358979323846 segments).meshes :=
      hmesh
    rw [createSphereWith_meshes, List.mem_singleton] at hm
    subst hm
    simp only [List.mem_map] at hi
    obtain ⟨v, hv, rfl⟩ := hi
    obtain ⟨h0, hmax⟩ := sphereIndexValues_bounds segments v hv
    rw [sphere_vertices_length]
    have hsq : (segments + 1) ^ 2 = segments ^ 2 + 2 * segments + 1 := by ring
    have hcast : (((segments + 1).toNat * (segments + 1).toNat : Nat) : Int)
        = (segments + 1) ^ 2 := by
      push_cast
      rw [Int.toNat_of_nonneg (by omega)]
      ring
    have hlt : ((v.toNat : Nat) : Int) < (((segments + 1).toNat * (segments + 1).toNat : Nat) : Int) := by
      rw [hcast, Int.toNat_of_nonneg h0]
      omega
    exact Int.ofNat_lt.1 hlt
  · have hmax := (sphereIndexValues_bounds segments v hv).2
    have h1 : segments ^ 2 ≤ 46339 ^ 2 := pow_le_pow_left₀ (by omega) hle 2
    norm_num at h1
    omega
  · have hm : mesh = ⟨cubeVertices, cubeIndices⟩ := List.mem_singleton.1 hmesh
    subst hm
    refine ⟨rfl, fun i hi => ?_⟩
    simp only [cubeIndices, List.mem_cons, List.mem_singleton, List.not_mem_nil, or_false] at hi
    omega
  · have hm : mesh ∈ [(⟨_, [0, 1, 2, 2, 3, 0]⟩ : Mesh ℝ)] := hmesh
    rw [List.mem_singleton] at hm
    subst hm
    refine ⟨rfl, fun i hi => ?_⟩
    simp only [List.mem_cons, List.mem_singleton, List.not_mem_nil, or_false] at hi
    omega

/-- C9 at a concrete input: for `createSphere(2)` the value `8 = 2^2 + 2*2` is
pushed, and it is below the vertex count `9 = (2+1)^2`. -/
theorem generated_indices_in_range_witness :
    (2 : Int) ^ 2 + 2 * 2 ∈ sphereIndexValues 2 ∧ (0 : Int) ≤ 2 ^ 2 + 2 * 2
      ∧ (2 : Int) ^ 2 + 2 * 2 < (2 + 1) ^ 2 :=
  ⟨(generated_indices_in_range.1 2 (by norm_num)).2.1,
    (generated_indices_in_range.1 2 (by norm_num)).1 _
      (generated_indices_in_range.1 2 (by norm_num)).2.1⟩

/-- C10: for every `segments ≥ 1` and every vertex of `createSphere(segments)`,
and likewise with any other value in place of the constant `pi`, the position
has length 0.5 and the stored normal is the position divided by its length,
which is `2 * position`. -/
theorem createSphere_vertex_on_sphere (segments : Int) (_hseg : 1 ≤ segments) :
    (∀ mesh, mesh ∈ (Model.createSphere realMath segments).meshes →
        ∀ v, v ∈ mesh.vertices →
          Vec3.length realMath v.position = 0.5
            ∧ v.normal = Vec3.scale v.position (1 / Vec3.length realMath v.position)
            ∧ v.normal = Vec3.scale v.position 2)
      ∧ ∀ (pi : ℝ) (mesh : Mesh ℝ), mesh ∈ (Model.createSphereWith realMath pi segments).meshes →
          ∀ v, v ∈ mesh.vertices →
            Vec3.length realMath v.position = 0.5
              ∧ v.normal = Vec3.scale v.position (1 / Vec3.length realMath v.position)
              ∧ v.normal = Vec3.scale v.position 2 :=
  ⟨fun mesh hmesh v hv => createSphereWith_vertex_spec _ segments mesh hmesh v hv,
    fun pi mesh hmesh v hv => createSphereWith_vertex_spec pi segments mesh hmesh v hv⟩

/-- C10 at a concrete input: the first vertex of `createSphere(1)` (grid point
`(0, 0)`) has a position of length 0.5. -/
theorem createSphere_vertex_on_sphere_witness :
    (1 : Int) ≤ 1
      ∧ Vec3.length realMath
          (sphereVertex realMath 3.14159265358979323846 1 0 0).position = 0.5 := by
  refine ⟨le_refl _, ?_⟩
  have hmem : sphereVertex realMath 3.14159265358979323846 1 0 0 ∈
      (forRange ((1 : Int) + 1)).flatMap fun y =>
        (forRange ((1 : Int) + 1)).map fun x =>
          sphereVertex realMath (3.14159265358979323846 : ℝ) 1 x y := by
    rw [List.mem_flatMap]
    refine ⟨0, (mem_forRange _ _).2 ⟨le_refl _, by norm_num⟩, ?_⟩
    rw [List.mem_map]
    exact ⟨0, (mem_forRange _ _).2 ⟨le_refl _, by norm_num⟩, rfl⟩
  exact ((createSphere_vertex_on_sphere 1 (le_refl _)).1 _ (List.mem_singleton.2 rfl) _ hmem).1

/-! ## Model: the cube and the plane -/

lemma createCube_meshes {K : Type} [LinearOrderedField K] :
    (Model.createCube : Model K).meshes = [⟨cubeVertices, cubeIndices⟩] := rfl

lemma cubeVertices_normals :
    (cubeVertices : List (Vertex ℝ)).map Vertex.normal =
      [⟨0, 0, 1⟩, ⟨0, 0, 1⟩, ⟨0, 0, 1⟩, ⟨0, 0, 1⟩,
       ⟨0, 0, -1⟩, ⟨0, 0, -1⟩, ⟨0, 0, -1⟩, ⟨0, 0, -1⟩,
       ⟨0, 1, 0⟩, ⟨0, 1, 0⟩, ⟨0, 1, 0⟩, ⟨0, 1, 0⟩,
       ⟨0, -1, 0⟩, ⟨0, -1, 0⟩, ⟨0, -1, 0⟩, ⟨0, -1, 0⟩,
       ⟨1, 0, 0⟩, ⟨1, 0, 0⟩, ⟨1, 0, 0⟩, ⟨1, 0, 0⟩,
       ⟨-1, 0, 0⟩, ⟨-1, 0, 0⟩, ⟨-1, 0, 0⟩, ⟨-1, 0, 0⟩] := by
  norm_num [cubeVertices]

/-- C11: `createCube()` builds one mesh with 24 vertices and 36 indices; the
four vertices `4k .. 4k+3` of face `k` carry the same normal, the six face
normals are pairwise different axis unit vectors, and the six indices of face
`k` lie in `4k .. 4k+3`. -/
theorem createCube_faces :
    ∃ mesh : Mesh ℝ, (Model.createCube : Model ℝ).meshes = [mesh]
      ∧ mesh.vertices.length = 24 ∧ mesh.indices.length = 36
      ∧ (∀ k j : Nat, k < 6 → j < 4 →
          (mesh.vertices.map Vertex.normal)[4 * k + j]? = (cubeFaceNormals : List (Vec3 ℝ))[k]?)
      ∧ (cubeFaceNormals : List (Vec3 ℝ)).length = 6
      ∧ (cubeFaceNormals : List (Vec3 ℝ)).Nodup
      ∧ (∀ n, n ∈ (cubeFaceNormals : List (Vec3 ℝ)) → n ∈ (axisUnitVectors : List (Vec3 ℝ)))
      ∧ (∀ k j : Nat, k < 6 → j < 6 →
          ∃ i, mesh.indices[6 * k + j]? = some i ∧ 4 * k ≤ i ∧ i ≤ 4 * k + 3) := by
  refine ⟨_, createCube_meshes, rfl, rfl, ?_, rfl, ?_, ?_, ?_⟩
  · intro k j hk hj
    rw [cubeVertices_normals]
    interval_cases k <;> interval_cases j <;> rfl
  · norm_num [cubeFaceNormals]
  · intro n hn
    simp only [cubeFaceNormals, List.mem_cons, List.mem_singleton, List.not_mem_nil,
      or_false] at hn
    rcases hn with rfl | rfl | rfl | rfl | rfl | rfl <;> simp [axisUnitVectors]
  · intro k j hk hj
    interval_cases k <;> interval_cases j <;> exact ⟨_, rfl, by decide, by decide⟩

lemma createPlane_meshes (size : ℝ) :
    (Model.createPlane size).meshes =
      [⟨[⟨⟨-(size / 2), 0, -(size / 2)⟩, ⟨0, 1, 0⟩, ⟨0, 0⟩⟩,
          ⟨⟨size / 2, 0, -(size / 2)⟩, ⟨0, 1, 0⟩, ⟨1, 0⟩⟩,
          ⟨⟨size / 2, 0, size / 2⟩, ⟨0, 1, 0⟩, ⟨1, 1⟩⟩,
          ⟨⟨-(size / 2), 0, size / 2⟩, ⟨0, 1, 0⟩, ⟨0, 1⟩⟩],
        [0, 1, 2, 2, 3, 0]⟩] := by
  have hhalf : size * 0.5 = size / 2 := by norm_num [div_eq_mul_inv]
  simp only [Model.createPlane, Model.addMesh, List.nil_append, hhalf]
  norm_num

/-- C12, the claim as stated fails: `createPlane(-2)` has the vertex
`(1, 0, 1)`, whose `x` coordinate is not in `[-size/2, size/2] = [1, -1]`. -/
theorem createPlane_negative_size_counterexample :
    ∃ mesh : Mesh ℝ, (Model.createPlane (-2 : ℝ)).meshes = [mesh]
      ∧ (mesh.vertices.map Vertex.position)[0]? = some ⟨1, 0, 1⟩
      ∧ ¬ (-((-2 : ℝ) / 2) ≤ 1 ∧ (1 : ℝ) ≤ (-2 : ℝ) / 2) := by
  refine ⟨_, createPlane_meshes (-2), ?_, ?_⟩
  · norm_num
  · norm_num

/-- C12 as amended: for every `size`, `createPlane(size)` builds one mesh with 4
vertices and 6 indices; the vertices are the corners `(∓size/2, 0, ∓size/2)` in
the order `(-,-), (+,-), (+,+), (-,+)`, every vertex has `y = 0` and normal
`(0,1,0)`, the texture coordinates are the four corners of the unit square, and
for `size ≥ 0` the `x` and `z` coordinates lie in `[-size/2, size/2]`. -/
theorem createPlane_quad (size : ℝ) :
    ∃ mesh : Mesh ℝ, (Model.createPlane size).meshes = [mesh]
      ∧ mesh.vertices.length = 4 ∧ mesh.indices.length = 6
      ∧ mesh.vertices.map Vertex.position =
          [⟨-(size / 2), 0, -(size / 2)⟩, ⟨size / 2, 0, -(size / 2)⟩,
            ⟨size / 2, 0, size / 2⟩, ⟨-(size / 2), 0, size / 2⟩]
      ∧ (∀ v, v ∈ mesh.vertices → v.position.y = 0 ∧ v.normal = ⟨0, 1, 0⟩)
      ∧ mesh.vertices.map Vertex.texCoords = [⟨0, 0⟩, ⟨1, 0⟩, ⟨1, 1⟩, ⟨0, 1⟩]
      ∧ (0 ≤ size → ∀ v, v ∈ mesh.vertices →
          -(size / 2) ≤ v.position.x ∧ v.position.x ≤ size / 2
            ∧ -(size / 2) ≤ v.position.z ∧ v.position.z ≤ size / 2) := by
  refine ⟨_, createPlane_meshes size, rfl, rfl, rfl, ?_, rfl, ?_⟩
  · intro v hv
    simp only [List.mem_cons, List.mem_singleton, List.not_mem_nil, or_false] at hv
    rcases hv with rfl | rfl | rfl | rfl <;> exact ⟨rfl, rfl⟩
  · intro hs v hv
    simp only [List.mem_cons, List.mem_singleton, List.not_mem_nil, or_false] at hv
    rcases hv with rfl | rfl | rfl | rfl <;> refine ⟨?_, ?_, ?_, ?_⟩ <;> simp only <;> linarith

/-- C12 as amended, at a concrete input: the first vertex of `createPlane(20)`
is `(-10, 0, -10)`, inside `[-10, 10]` in `x` and `z`. -/
theorem createPlane_quad_witness :
    ∃ mesh : Mesh ℝ, (Model.createPlane (20 : ℝ)).meshes = [mesh]
      ∧ (mesh.vertices.map Vertex.position)[0]? = some ⟨-(20 / 2), 0, -(20 / 2)⟩ := by
  obtain ⟨mesh, hm, -, -, hpos, -⟩ := createPlane_quad 20
  exact ⟨mesh, hm, by rw [hpos]; rfl⟩

/-! ## Model: winding of the cube and the plane -/

/-- C13, the claim as stated fails: the first triangle `(4, 5, 6)` of the back
face of `createCube()` has the stored normal `(0, 0, -1)` on its three vertices
and the geometric normal `(0, 0, 1)`, which is not a positive multiple of it. -/
theorem createCube_back_face_winding_counterexample :
    ∃ a b c : Vertex ℝ, (Model.createCube : Model ℝ).triangleVertices[2]? = some (a, b, c)
      ∧ a.normal = ⟨0, 0, -1⟩ ∧ b.normal = ⟨0, 0, -1⟩ ∧ c.normal = ⟨0, 0, -1⟩
      ∧ geometricNormal a.position b.position c.position = ⟨0, 0, 1⟩
      ∧ ¬ ∃ s : ℝ, 0 < s ∧
          geometricNormal a.position b.position c.position = Vec3.scale a.normal s := by
  have hg : geometricNormal (cubeVertices[4] : Vertex ℝ).position
      (cubeVertices[5] : Vertex ℝ).position (cubeVertices[6] : Vertex ℝ).position = ⟨0, 0, 1⟩ := by
    norm_num [cubeVertices, geometricNormal, Vec3.cross, Vec3.sub]
  have hn : (cubeVertices[4] : Vertex ℝ).normal = ⟨0, 0, -1⟩ := by norm_num [cubeVertices]
  refine ⟨_, _, _, rfl, hn, ?_, ?_, hg, ?_⟩
  · norm_num [cubeVertices]
  · norm_num [cubeVertices]
  · rintro ⟨s, hs, h⟩
    have h' : geometricNormal (cubeVertices[4] : Vertex ℝ).position
        (cubeVertices[5] : Vertex ℝ).position (cubeVertices[6] : Vertex ℝ).position
        = Vec3.scale (cubeVertices[4] : Vertex ℝ).normal s := h
    rw [hg, hn] at h'
    have hz := congrArg Vec3.z h'
    simp only [Vec3.scale] at hz
    linarith

/-- C13 as amended: every triangle of `createCube()` and of `createPlane(size)`
carries one stored normal on its three vertices and its geometric normal
`(p1 - p0) × (p2 - p0)` is a multiple of that normal.  For the cube the factor
is `+1` (counter-clockwise seen from outside) on the front, bottom and left
faces (faces 0, 3, 5) and `-1` (clockwise) on the back, top and right faces
(faces 1, 2, 4); for the plane the factor is `-size^2` on both triangles
(clockwise seen from above whenever `size ≠ 0`). -/
theorem generated_triangle_winding :
    (Model.createCube : Model ℝ).triangleVertices.length = 12
      ∧ (∀ k : Nat, k < 12 → ∃ (a b c : Vertex ℝ) (n : Vec3 ℝ),
          (Model.createCube : Model ℝ).triangleVertices[k]? = some (a, b, c)
            ∧ (cubeFaceNormals : List (Vec3 ℝ))[k / 2]? = some n
            ∧ a.normal = n ∧ b.normal = n ∧ c.normal = n
            ∧ ((k / 2 = 0 ∨ k / 2 = 3 ∨ k / 2 = 5) →
                geometricNormal a.position b.position c.position = Vec3.scale n 1)
            ∧ ((k / 2 = 1 ∨ k / 2 = 2 ∨ k / 2 = 4) →
                geometricNormal a.position b.position c.position = Vec3.scale n (-1)))
      ∧ ∀ size : ℝ, (Model.createPlane size).triangleVertices.length = 2
          ∧ ∀ k : Nat, k < 2 → ∃ a b c : Vertex ℝ,
              (Model.createPlane size).triangleVertices[k]? = some (a, b, c)
                ∧ a.normal = ⟨0, 1, 0⟩ ∧ b.normal = ⟨0, 1, 0⟩ ∧ c.normal = ⟨0, 1, 0⟩
                ∧ geometricNormal a.position b.position c.position
                    = Vec3.scale ⟨0, 1, 0⟩ (-(size ^ 2)) := by
  refine ⟨rfl, fun k hk => ?_, fun size => ⟨rfl, fun k hk => ?_⟩⟩
  · interval_cases k <;>
      refine ⟨_, _, _, _, rfl, rfl, ?_, ?_, ?_, ?_, ?_⟩ <;>
      norm_num [cubeVertices, cubeFaceNormals, geometricNormal, Vec3.cross, Vec3.sub, Vec3.scale]
  · interval_cases k <;>
      refine ⟨_, _, _, rfl, ?_, ?_, ?_, ?_⟩ <;>
      norm_num [Model.createPlane, Model.addMesh, geometricNormal, Vec3.cross, Vec3.sub,
        Vec3.scale] <;> ring

/-! ## Model: the triangles of the sphere -/

lemma getElem?_flatMap_const {α β : Type} (l : List α) (f : α → List β) (n : Nat)
    (h : ∀ a, a ∈ l → (f a).length = n) (i j : Nat) (hj : j < n) :
    (l.flatMap f)[i * n + j]? = (l[i]?).bind fun a => (f a)[j]? := by
  induction l generalizing i with
  | nil => simp
  | cons a l ih =>
    have ha : (f a).length = n := h a (List.mem_cons_self a l)
    rw [List.flatMap_cons]
    cases i with
    | zero =>
      rw [Nat.zero_mul, Nat.zero_add, List.getElem?_append_left (by omega),
        List.getElem?_cons_zero, Option.some_bind]
    | succ i =>
      have hle : (f a).length ≤ (i + 1) * n + j := by
        rw [ha, Nat.succ_mul]
        omega
      rw [List.getElem?_append_right hle, ha, List.getElem?_cons_succ,
        ← ih (fun b hb => h b (List.mem_cons_of_mem a hb)) i]
      congr 1
      rw [Nat.succ_mul]
      omega

lemma getElem?_forRange (n : Int) (i : Nat) (hi : (i : Int) < n) :
    (forRange n)[i]? = some (i : Int) := by
  unfold forRange
  rw [List.getElem?_map, List.getElem?_range (by omega)]
  rfl

lemma sphereCell_length (segments x y : Int) : (sphereCell segments x y).length = 6 := rfl

lemma sphere_row_length (segments y : Int) :
    ((forRange segments).flatMap fun x => sphereCell segments x y).length
      = segments.toNat * 6 := by
  rw [length_flatMap_const _ _ 6 (fun x _ => sphereCell_length segments x y), length_forRange]

lemma sphereIndexValues_getElem? (segments : Int) (x y j : Nat) (hx : (x : Int) < segments)
    (hy : (y : Int) < segments) (hj : j < 6) :
    (sphereIndexValues segments)[y * (segments.toNat * 6) + (x * 6 + j)]?
      = (sphereCell segments x y)[j]? := by
  unfold sphereIndexValues
  have hrow : x * 6 + j < segments.toNat * 6 := by omega
  rw [getElem?_flatMap_const _ _ (segments.toNat * 6)
      (fun y _ => sphere_row_length segments y) y (x * 6 + j) hrow,
    getElem?_forRange segments y hy]
  show ((forRange segments).flatMap fun x => sphereCell segments x y)[x * 6 + j]? = _
  rw [getElem?_flatMap_const _ _ 6 (fun x _ => sphereCell_length segments x y) x j hj,
    getElem?_forRange segments x hx]
  rfl

lemma sphere_vertices_getElem? {K : Type} [LinearOrderedField K] (M : Scalar K) (pi : K)
    (segments : Int) (x y : Nat) (hx : (x : Int) ≤ segments) (hy : (y : Int) ≤ segments) :
    ((forRange (segments + 1)).flatMap fun y =>
        (forRange (segments + 1)).map fun x => sphereVertex M pi segments x y)[
          y * (segments + 1).toNat + x]?
      = some (sphereVertex M pi segments x y) := by
  have hrow : ∀ v : Int, v ∈ forRange (segments + 1) →
      ((forRange (segments + 1)).map fun u => sphereVertex M pi segments u v).length
        = (segments + 1).toNat := by
    intro v _
    rw [List.length_map, length_forRange]
  rw [getElem?_flatMap_const _ _ (segments + 1).toNat hrow y x (by omega),
    getElem?_forRange (segments + 1) y (by omega)]
  show ((forRange (segments + 1)).map fun u => sphereVertex M pi segments u y)[x]? = _
  rw [List.getElem?_map, getElem?_forRange (segments + 1) x (by omega)]
  rfl

lemma triangles_getElem? (l : List Nat) (k a b c : Nat) (h0 : l[3 * k]? = some a)
    (h1 : l[3 * k + 1]? = some b) (h2 : l[3 * k + 2]? = some c) :
    (triangles l)[k]? = some (a, b, c) := by
  induction k generalizing l with
  | zero =>
    rcases l with _ | ⟨i0, _ | ⟨i1, _ | ⟨i2, rest⟩⟩⟩
    · simp at h0
    · simp at h1
    · simp at h2
    · simp only [Nat.mul_zero, Nat.zero_add, List.getElem?_cons_zero, List.getElem?_cons_succ,
        Option.some.injEq] at h0 h1 h2
      subst h0 h1 h2
      simp [triangles]
  | succ k ih =>
    have e0 : 3 * (k + 1) = (3 * k) + 1 + 1 + 1 := by ring
    have e1 : 3 * (k + 1) + 1 = (3 * k + 1) + 1 + 1 + 1 := by ring
    have e2 : 3 * (k + 1) + 2 = (3 * k + 2) + 1 + 1 + 1 := by ring
    rw [e0] at h0
    rw [e1] at h1
    rw [e2] at h2
    rcases l with _ | ⟨i0, _ | ⟨i1, _ | ⟨i2, rest⟩⟩⟩
    · simp at h0
    · simp at h0
    · simp at h0
    · simp only [List.getElem?_cons_succ] at h0 h1 h2
      simp only [triangles, List.getElem?_cons_succ]
      exact ih rest h0 h1 h2

lemma sphereCell_eq_grid (segments x y : Int) :
    sphereCell segments x y =
      [gridIndex segments x y, gridIndex segments x (y + 1), gridIndex segments (x + 1) y,
        gridIndex segments x (y + 1), gridIndex segments (x + 1) (y + 1),
        gridIndex segments (x + 1) y] := by
  simp only [sphereCell, gridIndex, List.cons.injEq, and_true]
  refine ⟨trivial, ?_, ?_, ?_, ?_, ?_⟩ <;> ring

/-- C14: for every `segments ≥ 1` and every grid cell `(x, y)` with
`0 ≤ x, y < segments`, `createSphere` emits, as triangles number `2c` and `2c + 1`
with `c = y * segments + x`, the triangles `(first, second, first + 1)` and
`(second, second + 1, first + 1)`, where `first = y * (segments + 1) + x` and
`second = first + segments + 1`.  These four indices are the vertices of the
grid points `(x, y)`, `(x, y+1)`, `(x+1, y)`, `(x+1, y+1)`; both triangles
contain the diagonal `second, first + 1`, and both have signed area `-1/2` in the
parameter grid, for every cell. -/
theorem createSphere_cell_triangles (segments x y : Int) (hseg : 1 ≤ segments)
    (hx0 : 0 ≤ x) (hx : x < segments) (hy0 : 0 ≤ y) (hy : y < segments) :
    sphereCell segments x y =
        [gridIndex segments x y, gridIndex segments x (y + 1), gridIndex segments (x + 1) y,
          gridIndex segments x (y + 1), gridIndex segments (x + 1) (y + 1),
          gridIndex segments (x + 1) y]
      ∧ gridIndex segments x y = y * (segments + 1) + x
      ∧ gridIndex segments x (y + 1) = gridIndex segments x y + segments + 1
      ∧ gridIndex segments (x + 1) y = gridIndex segments x y + 1
      ∧ gridIndex segments (x + 1) (y + 1) = gridIndex segments x (y + 1) + 1
      ∧ (∃ mesh : Mesh ℝ, (Model.createSphere realMath segments).meshes = [mesh]
          ∧ (triangles mesh.indices)[2 * (y * segments + x).toNat]?
              = some ((gridIndex segments x y).toNat, (gridIndex segments x (y + 1)).toNat,
                  (gridIndex segments (x + 1) y).toNat)
            ∧ (triangles mesh.indices)[2 * (y * segments + x).toNat + 1]?
              = some ((gridIndex segments x (y + 1)).toNat,
                  (gridIndex segments (x + 1) (y + 1)).toNat,
                  (gridIndex segments (x + 1) y).toNat)
            ∧ ∀ u v : Int, 0 ≤ u → u ≤ segments → 0 ≤ v → v ≤ segments →
                mesh.vertices[(gridIndex segments u v).toNat]?
                  = some (sphereVertex realMath 3.14159265358979323846 segments u v))
      ∧ signedArea2 (x, y) (x, y + 1) (x + 1, y) = -1
      ∧ signedArea2 (x, y + 1) (x + 1, y + 1) (x + 1, y) = -1 := by
  refine ⟨sphereCell_eq_grid segments x y, rfl, ?_, ?_, ?_,
    ⟨_, createSphereWith_meshes realMath 3.14159265358979323846 segments, ?_⟩, ?_, ?_⟩
  · simp only [gridIndex]; ring
  · simp only [gridIndex]; ring
  · simp only [gridIndex]; ring
  · lift segments to ℕ using (by omega) with s
    lift x to ℕ using hx0 with a
    lift y to ℕ using hy0 with b
    have hcell : ((b : ℤ) * (s : ℤ) + (a : ℤ)).toNat = b * s + a := by
      have : ((b : ℤ) * (s : ℤ) + (a : ℤ)) = ((b * s + a : ℕ) : ℤ) := by push_cast; ring
      rw [this, Int.toNat_natCast]
    have hidx : ∀ j, j < 6 →
        ((sphereIndexValues (s : ℤ)).map Int.toNat)[3 * (2 * (b * s + a)) + j]?
          = ((sphereCell (s : ℤ) a b)[j]?).map Int.toNat := by
      intro j hj
      rw [List.getElem?_map, ← sphereIndexValues_getElem? (s : ℤ) a b j hx hy hj,
        Int.toNat_natCast]
      congr 2
      ring
    refine ⟨?_, ?_, fun u v hu0 hu hv0 hv => ?_⟩
    · rw [hcell]
      apply triangles_getElem?
      · have := hidx 0 (by norm_num)
        rw [sphereCell_eq_grid] at this
        simpa using this
      · have := hidx 1 (by norm_num)
        rw [sphereCell_eq_grid] at this
        simpa using this
      · have := hidx 2 (by norm_num)
        rw [sphereCell_eq_grid] at this
        simpa using this
    · rw [hcell]
      apply triangles_getElem?
      · have := hidx 3 (by norm_num)
        rw [sphereCell_eq_grid] at this
        have e : 3 * (2 * (b * s + a) + 1) = 3 * (2 * (b * s + a)) + 3 := by ring
        rw [e]
        simpa using this
      · have := hidx 4 (by norm_num)
        rw [sphereCell_eq_grid] at this
        have e : 3 * (2 * (b * s + a) + 1) + 1 = 3 * (2 * (b * s + a)) + 4 := by ring
        rw [e]
        simpa using this
      · have := hidx 5 (by norm_num)
        rw [sphereCell_eq_grid] at this
        have e : 3 * (2 * (b * s + a) + 1) + 2 = 3 * (2 * (b * s + a)) + 5 := by ring
        rw [e]
        simpa using this
    · lift u to ℕ using hu0 with p
      lift v to ℕ using hv0 with q
      have hg : (gridIndex (s : ℤ) p q).toNat = q * ((s : ℤ) + 1).toNat + p := by
        have h1 : ((s : ℤ) + 1).toNat = s + 1 := by
          have : ((s : ℤ) + 1) = ((s + 1 : ℕ) : ℤ) := by push_cast; ring
          rw [this, Int.toNat_natCast]
        have : gridIndex (s : ℤ) p q = ((q * (s + 1) + p : ℕ) : ℤ) := by
          simp only [gridIndex]; push_cast; ring
        rw [this, Int.toNat_natCast, h1]
      show ((forRange ((s : ℤ) + 1)).flatMap fun y =>
        (forRange ((s : ℤ) + 1)).map fun x =>
          sphereVertex realMath (3.14159265358979323846 : ℝ) (s : ℤ) x y)[
            (gridIndex (s : ℤ) p q).toNat]? = _
      rw [hg]
      exact sphere_vertices_getElem? realMath _ (s : ℤ) p q hu hv
  · simp only [signedArea2]; ring
  · simp only [signedArea2]; ring

/-- C14 at a concrete input: for `segments = 2` the single mesh `createSphere`
builds holds, for the cell `(1, 1)` (cell number 3), the triangles `(4, 7, 5)`
and `(7, 8, 5)` as its triangles number 6 and 7: `first = 4`, `second = 7`. -/
theorem createSphere_cell_triangles_witness :
    ∃ mesh : Mesh ℝ, (Model.createSphere realMath 2).meshes = [mesh]
      ∧ (triangles mesh.indices)[6]? = some (4, 7, 5)
      ∧ (triangles mesh.indices)[7]? = some (7, 8, 5) := by
  obtain ⟨mesh, hmesh, h1, h2, _⟩ :=
    (createSphere_cell_triangles 2 1 1 (by norm_num) (by norm_num) (by norm_num) (by norm_num)
      (by norm_num)).2.2.2.2.2.1
  exact ⟨mesh, hmesh, h1, h2⟩

/-! ## Shader: loading, and moving hardware handles -/

/-- C15, the claim as stated fails: for a shader that already holds the linked
program 7, a call of `loadFromSource` whose vertex stage fails to compile
returns false and leaves the handle at 7, not 0. -/
theorem loadFromSource_reload_counterexample :
    (Shader.loadFromSource ⟨7⟩ ⟨1, false, 2, true, 3, true⟩).1 = false
      ∧ (Shader.loadFromSource ⟨7⟩ ⟨1, false, 2, true, 3, true⟩).2.1.getId = 7 := by
  decide

/-- C15 as amended: `loadFromSource` returns true exactly when both stages
compile and the program links.  When the vertex or the fragment stage fails to
compile it returns false and leaves the program handle unchanged: 0 for a
freshly constructed shader, the old handle for a shader already holding a
program.  When both stages compile and linking fails it returns false and the
handle is 0.  For a freshly constructed shader the handle is therefore 0 after
every failure. -/
theorem loadFromSource_failure (s : Shader) (gl : GLAnswers) :
    ((Shader.loadFromSource s gl).1 = true ↔
        gl.vertexCompiled = true ∧ gl.fragmentCompiled = true ∧ gl.linked = true)
      ∧ ((gl.vertexCompiled = false ∨ gl.fragmentCompiled = false) →
          (Shader.loadFromSource s gl).1 = false
            ∧ (Shader.loadFromSource s gl).2.1.getId = s.getId)
      ∧ (gl.vertexCompiled = true → gl.fragmentCompiled = true → gl.linked = false →
          (Shader.loadFromSource s gl).1 = false ∧ (Shader.loadFromSource s gl).2.1.getId = 0)
      ∧ ((Shader.loadFromSource Shader.new gl).1 = false →
          (Shader.loadFromSource Shader.new gl).2.1.getId = 0) := by
  obtain ⟨vertex, cv, fragment, cf, program, linked⟩ := gl
  cases cv <;> cases cf <;> cases linked <;>
    simp [Shader.loadFromSource, Shader.compileShader, Shader.linkProgram, Shader.getId,
      Shader.new]

/-- C15 as amended, at concrete inputs: a freshly constructed shader whose
fragment stage fails to compile returns false with handle 0, and the vertex
stage object is released. -/
theorem loadFromSource_failure_witness :
    (Shader.loadFromSource Shader.new ⟨1, true, 2, false, 3, true⟩).1 = false
      ∧ (Shader.loadFromSource Shader.new ⟨1, true, 2, false, 3, true⟩).2.1.getId = 0 :=
  ⟨((loadFromSource_failure Shader.new ⟨1, true, 2, false, 3, true⟩).2.1 (Or.inr rfl)).1,
    (loadFromSource_failure Shader.new ⟨1, true, 2, false, 3, true⟩).2.2.2
      ((loadFromSource_failure Shader.new ⟨1, true, 2, false, 3, true⟩).2.1 (Or.inr rfl)).1⟩

lemma shader_moveAssign_of_ne (mem : Nat → Shader) (self other : Nat) (h : self ≠ other) :
    (Shader.moveAssign mem self other).1 =
      Function.update (Function.update mem self ⟨(mem other).id⟩) other ⟨0⟩ := by
  unfold Shader.moveAssign
  rw [if_pos h]

lemma shader_moveAssign_apply (mem : Nat → Shader) (self other : Nat) (h : self ≠ other)
    (a : Nat) :
    ((Shader.moveAssign mem self other).1 a).id =
      if a = other then 0 else if a = self then (mem other).id else (mem a).id := by
  rw [shader_moveAssign_of_ne mem self other h]
  by_cases ho : a = other
  · subst ho
    simp
  · by_cases hs : a = self
    · subst hs
      simp [Function.update_noteq ho, ho]
    · simp [Function.update_noteq ho, Function.update_noteq hs, ho, hs]

lemma shader_moveAssign_exclusive (mem : Nat → Shader) (self other : Nat) (h : self ≠ other)
    (hex : Shader.Exclusive mem) : Shader.Exclusive (Shader.moveAssign mem self other).1 := by
  intro a b hab hne
  rw [shader_moveAssign_apply mem self other h] at hne ⊢
  rw [shader_moveAssign_apply mem self other h b]
  by_cases hao : a = other
  · rw [if_pos hao] at hne
    exact absurd rfl hne
  · rw [if_neg hao] at hne ⊢
    by_cases hbo : b = other
    · rw [if_pos hbo]
      exact hne
    · rw [if_neg hbo]
      by_cases has : a = self
      · rw [if_pos has] at hne ⊢
        have hbs : b ≠ self := fun hb => hab (has.trans hb.symm)
        rw [if_neg hbs]
        exact hex other b (Ne.symm hbo) hne
      · rw [if_neg has] at hne ⊢
        by_cases hbs : b = self
        · rw [if_pos hbs]
          exact hex a other hao hne
        · rw [if_neg hbs]
          exact hex a b hab hne

lemma mesh_moveAssign_of_ne (mem : Nat → MeshObject ℝ) (self other : Nat)
    (h : self ≠ other) :
    (MeshObject.moveAssign mem self other).1 =
      Function.update (Function.update mem self
          { vertices := (mem other).vertices, indices := (mem other).indices,
            VAO := (mem other).VAO, VBO := (mem other).VBO, EBO := (mem other).EBO })
        other { vertices := [], indices := [], VAO := 0, VBO := 0, EBO := 0 } := by
  unfold MeshObject.moveAssign
  rw [if_pos h]

lemma mesh_moveAssign_self (mem : Nat → MeshObject ℝ) (self other : Nat)
    (h : self ≠ other) :
    (MeshObject.moveAssign mem self other).1 self =
      { vertices := (mem other).vertices, indices := (mem other).indices,
        VAO := (mem other).VAO, VBO := (mem other).VBO, EBO := (mem other).EBO } := by
  rw [mesh_moveAssign_of_ne mem self other h, Function.update_noteq h,
    Function.update_same]

lemma mesh_moveAssign_other (mem : Nat → MeshObject ℝ) (self other : Nat)
    (h : self ≠ other) :
    (MeshObject.moveAssign mem self other).1 other =
      { vertices := [], indices := [], VAO := 0, VBO := 0, EBO := 0 } := by
  rw [mesh_moveAssign_of_ne mem self other h, Function.update_same]

lemma mesh_moveAssign_frame (mem : Nat → MeshObject ℝ) (self other : Nat)
    (h : self ≠ other) (a : Nat) (hs : a ≠ self) (ho : a ≠ other) :
    (MeshObject.moveAssign mem self other).1 a = mem a := by
  rw [mesh_moveAssign_of_ne mem self other h, Function.update_noteq ho,
    Function.update_noteq hs]

lemma mesh_moveAssign_exclusive (mem : Nat → MeshObject ℝ) (self other : Nat)
    (h : self ≠ other) (hex : MeshObject.Exclusive mem) :
    MeshObject.Exclusive (MeshObject.moveAssign mem self other).1 := by
  intro a b hab
  by_cases hao : a = other
  · subst hao
    rw [mesh_moveAssign_other mem self a h]
    exact ⟨fun h0 => absurd rfl h0, fun h0 => absurd rfl h0, fun h0 => absurd rfl h0⟩
  · by_cases hbo : b = other
    · subst hbo
      rw [mesh_moveAssign_other mem self b h]
      exact ⟨fun h0 => h0, fun h0 => ⟨h0, h0⟩, fun h0 => ⟨h0, h0⟩⟩
    · by_cases has : a = self
      · subst has
        have hbs : b ≠ a := fun hb => hab hb.symm
        rw [mesh_moveAssign_self mem a other h,
          mesh_moveAssign_frame mem a other h b hbs hbo]
        exact hex other b (Ne.symm hbo)
      · rw [mesh_moveAssign_frame mem self other h a has hao]
        by_cases hbs : b = self
        · subst hbs
          rw [mesh_moveAssign_self mem b other h]
          exact hex a other hao
        · rw [mesh_moveAssign_frame mem self other h b hbs hbo]
          exact hex a b hab

/-- C17: moving a Shader or a Mesh transfers the handles and nulls the source.
The move constructor gives the new object the source's handles and leaves every
handle of the source 0.  Move assignment from a distinct object gives the
destination the source's former handles, leaves every handle of the source 0,
leaves all other objects unchanged, and keeps the property that no non-zero
handle is held by two objects.  Self move-assignment changes nothing and
releases nothing. -/
theorem move_transfers_handles :
    (∀ other : Shader,
        (Shader.moveConstruct other).1.id = other.id ∧ (Shader.moveConstruct other).2.id = 0)
      ∧ (∀ (mem : Nat → Shader) (self other : Nat), self ≠ other →
          ((Shader.moveAssign mem self other).1 self).id = (mem other).id
            ∧ ((Shader.moveAssign mem self other).1 other).id = 0
            ∧ (∀ a, a ≠ self → a ≠ other → (Shader.moveAssign mem self other).1 a = mem a)
            ∧ (Shader.Exclusive mem → Shader.Exclusive (Shader.moveAssign mem self other).1))
      ∧ (∀ (mem : Nat → Shader) (self : Nat), Shader.moveAssign mem self self = (mem, []))
      ∧ (∀ other : MeshObject ℝ,
          ((MeshObject.moveConstruct other).1.VAO = other.VAO
              ∧ (MeshObject.moveConstruct other).1.VBO = other.VBO
              ∧ (MeshObject.moveConstruct other).1.EBO = other.EBO)
            ∧ (MeshObject.moveConstruct other).2.VAO = 0
            ∧ (MeshObject.moveConstruct other).2.VBO = 0
            ∧ (MeshObject.moveConstruct other).2.EBO = 0)
      ∧ (∀ (mem : Nat → MeshObject ℝ) (self other : Nat), self ≠ other →
          (((MeshObject.moveAssign mem self other).1 self).VAO = (mem other).VAO
              ∧ ((MeshObject.moveAssign mem self other).1 self).VBO = (mem other).VBO
              ∧ ((MeshObject.moveAssign mem self other).1 self).EBO = (mem other).EBO)
            ∧ (((MeshObject.moveAssign mem self other).1 other).VAO = 0
              ∧ ((MeshObject.moveAssign mem self other).1 other).VBO = 0
              ∧ ((MeshObject.moveAssign mem self other).1 other).EBO = 0)
            ∧ (∀ a, a ≠ self → a ≠ other → (MeshObject.moveAssign mem self other).1 a = mem a)
            ∧ (MeshObject.Exclusive mem →
                MeshObject.Exclusive (MeshObject.moveAssign mem self other).1))
      ∧ (∀ (mem : Nat → MeshObject ℝ) (self : Nat),
          MeshObject.moveAssign mem self self = (mem, [])) := by
  refine ⟨fun other => ⟨rfl, rfl⟩, fun mem self other h => ⟨?_, ?_, fun a hs ho => ?_,
    shader_moveAssign_exclusive mem self other h⟩, fun mem self => ?_, fun other =>
    ⟨⟨rfl, rfl, rfl⟩, rfl, rfl, rfl⟩, fun mem self other h => ⟨?_, ?_,
    mesh_moveAssign_frame mem self other h, mesh_moveAssign_exclusive mem self other h⟩,
    fun mem self => ?_⟩
  · rw [shader_moveAssign_apply mem self other h, if_neg h, if_pos rfl]
  · rw [shader_moveAssign_apply mem self other h, if_pos rfl]
  · rw [shader_moveAssign_of_ne mem self other h, Function.update_noteq ho,
      Function.update_noteq hs]
  · unfold Shader.moveAssign
    rw [if_neg (fun hne => hne rfl)]
  · rw [mesh_moveAssign_self mem self other h]
    exact ⟨rfl, rfl, rfl⟩
  · rw [mesh_moveAssign_other mem self other h]
    exact ⟨rfl, rfl, rfl⟩
  · unfold MeshObject.moveAssign
    rw [if_neg (fun hne => hne rfl)]

/-! ## Game: collisions -/

lemma checkCollisionsLoop_list (M : Scalar ℝ) (cameraPos : Vec3 ℝ) (radius : ℝ)
    (l : List (GameObject ℝ)) (score count : Int) :
    (Game.checkCollisionsLoop M cameraPos radius l score count).1 =
      l.map fun o =>
        if o.collected = false ∧
            Vec3.length M (Vec3.sub cameraPos o.position) < radius + o.boundingRadius
        then o.setCollected true else o := by
  induction l generalizing score count with
  | nil => rfl
  | cons o l ih =>
    unfold Game.checkCollisionsLoop
    by_cases hc : o.collected = true
    · simp [hc, ih]
    · have hc' : o.collected = false := by simpa using hc
      by_cases hd : Vec3.length M (Vec3.sub cameraPos o.position) < radius + o.boundingRadius
      · simp [hc', hd, ih]
      · simp [hc', hd, ih]

lemma checkCollisions_collectibles (M : Scalar ℝ) (g : Game ℝ) :
    (Game.checkCollisions M g).collectibles =
      g.collectibles.map fun o =>
        if o.collected = false ∧
            Vec3.length M (Vec3.sub g.camera.position o.position) < 0.8 + o.boundingRadius
        then o.setCollected true else o :=
  checkCollisionsLoop_list M g.camera.position 0.8 g.collectibles g.score g.collectiblesCollected

/-- C16: `checkCollisions` keeps the list of collectibles in place, and a
collectible that was not yet collected is flagged collected if and only if the
distance between the camera position and its position is strictly less than
`0.8 + boundingRadius`; its position and bounding radius are unchanged.  In
particular, with bounding radius 0.3, distance 0.5 is collected and distance 2.0
is not, and a distance equal to the threshold is not. -/
theorem checkCollisions_collects (g : Game ℝ) :
    (Game.checkCollisions realMath g).collectibles.length = g.collectibles.length
      ∧ ∀ (i : Nat) (o : GameObject ℝ), g.collectibles[i]? = some o → o.collected = false →
          ∃ o', (Game.checkCollisions realMath g).collectibles[i]? = some o'
            ∧ o'.position = o.position ∧ o'.boundingRadius = o.boundingRadius
            ∧ (o'.collected = true ↔
                Vec3.length realMath (Vec3.sub g.camera.position o.position)
                  < 0.8 + o.boundingRadius)
            ∧ (Vec3.length realMath (Vec3.sub g.camera.position o.position) = 0.5 →
                o.boundingRadius = 0.3 → o'.collected = true)
            ∧ (Vec3.length realMath (Vec3.sub g.camera.position o.position) = 2.0 →
                o.boundingRadius = 0.3 → o'.collected = false)
            ∧ (Vec3.length realMath (Vec3.sub g.camera.position o.position)
                  = 0.8 + o.boundingRadius → o'.collected = false) := by
  rw [checkCollisions_collectibles]
  refine ⟨List.length_map _ _, fun i o hi hc => ?_⟩
  rw [List.getElem?_map, hi]
  by_cases hd : Vec3.length realMath (Vec3.sub g.camera.position o.position)
      < 0.8 + o.boundingRadius
  · refine ⟨o.setCollected true, by simp [hc, hd], rfl, rfl, ⟨fun _ => hd, fun _ => rfl⟩,
      fun _ _ => rfl, fun h2 hb => ?_, fun he => ?_⟩
    · rw [h2, hb] at hd
      norm_num at hd
    · rw [he] at hd
      exact absurd hd (lt_irrefl _)
  · refine ⟨o, by simp [hc, hd], rfl, rfl, ⟨fun h => ?_, fun h => absurd h hd⟩,
      fun h5 hb => ?_, fun _ _ => hc, fun _ => hc⟩
    · rw [hc] at h
      exact absurd h (by simp)
    · rw [h5, hb] at hd
      norm_num at hd

/-- C16 at concrete inputs: with the camera at the origin, an object at distance
0.5 with bounding radius 0.3 (scale 0.6) is flagged collected. -/
theorem checkCollisions_collects_witness :
    ∃ o' : GameObject ℝ,
      (Game.checkCollisions realMath
          (Game.atOrigin [GameObject.new 0 ⟨0, 0, -0.5⟩ (Vec3.splat 0.6)])).collectibles[0]?
        = some o'
      ∧ o'.collected = true := by
  obtain ⟨o', h0, -, -, -, h5, -⟩ :=
    (checkCollisions_collects
      (Game.atOrigin [GameObject.new 0 ⟨0, 0, -0.5⟩ (Vec3.splat 0.6)])).2 0
        (GameObject.new 0 ⟨0, 0, -0.5⟩ (Vec3.splat 0.6)) rfl rfl
  refine ⟨o', h0, h5 ?_ ?_⟩
  · have hsub : Vec3.sub (Game.atOrigin
        [GameObject.new 0 (⟨0, 0, -0.5⟩ : Vec3 ℝ) (Vec3.splat 0.6)]).camera.position
        (GameObject.new 0 (⟨0, 0, -0.5⟩ : Vec3 ℝ) (Vec3.splat 0.6)).position = ⟨0, 0, 0.5⟩ := by
      ext <;> norm_num [Game.atOrigin, Camera.lookingForward, GameObject.new, Vec3.sub]
    rw [hsub, Vec3.length_axis_z]
    norm_num [abs_of_pos]
  · norm_num [GameObject.new, Vec3.splat]

/-! ## Game: the update step -/

lemma take_succ_of_getElem? {α : Type} (l : List α) (i : Nat) (a : α) (h : l[i]? = some a) :
    l.take (i + 1) = l.take i ++ [a] := by
  induction l generalizing i with
  | nil => simp at h
  | cons b l ih =>
    cases i with
    | zero =>
      simp only [List.getElem?_cons_zero, Option.some.injEq] at h
      subst h
      rfl
    | succ i =>
      rw [List.getElem?_cons_succ] at h
      rw [List.take_succ_cons, List.take_succ_cons, ih i h]
      rfl

lemma take_succ_set {α : Type} (l : List α) (r : Nat) (a : α) (h : r < l.length) :
    (l.set r a).take (r + 1) = l.take r ++ [a] := by
  induction l generalizing r with
  | nil => simp at h
  | cons b l ih =>
    cases r with
    | zero => rfl
    | succ r =>
      rw [List.set_cons_succ, List.take_succ_cons, List.take_succ_cons,
        ih r (by simpa using h)]
      rfl

lemma removeIfLoop_take (draws : Nat → SpawnDraw ℝ) (L : List (GameObject ℝ)) (n : Nat) :
    ∀ (first result spawned : Nat) (g : Game ℝ), first + n = L.length → result ≤ first →
      L.length ≤ g.collectibles.length →
      (∀ j, first ≤ j → j < L.length → g.collectibles[j]? = L[j]?) →
      g.collectibles.take result = (L.take first).filter (fun o => !o.collected) →
      (Game.removeIfLoop draws n first result spawned g).1.collectibles.take
          (Game.removeIfLoop draws n first result spawned g).2
        = L.filter (fun o => !o.collected) := by
  induction n with
  | zero =>
    intro first result spawned g hn _ _ _ htake
    have hfirst : first = L.length := by omega
    rw [hfirst, List.take_length] at htake
    exact htake
  | succ n ih =>
    intro first result spawned g hn hres hlen hsame htake
    have hlt : first < L.length := by omega
    have hobj : g.collectibles[first]? = some L[first] := by
      rw [hsame first (le_refl _) hlt, List.getElem?_eq_getElem hlt]
    have hL : L.take (first + 1) = L.take first ++ [L[first]] :=
      take_succ_of_getElem? L first _ (List.getElem?_eq_getElem hlt)
    unfold Game.removeIfLoop
    rw [hobj]
    by_cases hc : L[first].collected = true
    · simp only [hc, if_true]
      apply ih (first + 1) result (spawned + 1) _ (by omega) (by omega)
      · show L.length ≤ (g.collectibles ++ [_]).length
        rw [List.length_append]
        omega
      · intro j hj hjl
        show (g.collectibles ++ [_])[j]? = L[j]?
        rw [List.getElem?_append_left (by omega)]
        exact hsame j (by omega) hjl
      · show (g.collectibles ++ [_]).take result = _
        rw [List.take_append_of_le_length (by omega), htake, hL, List.filter_append]
        simp [hc]
    · have hc' : L[first].collected = false := by simpa using hc
      simp only [hc', Bool.false_eq_true, if_false]
      apply ih (first + 1) (result + 1) spawned _ (by omega) (by omega)
      · show L.length ≤ (g.collectibles.set result L[first]).length
        rw [List.length_set]
        exact hlen
      · intro j hj hjl
        show (g.collectibles.set result L[first])[j]? = L[j]?
        rw [List.getElem?_set_ne (by omega)]
        exact hsame j (by omega) hjl
      · show (g.collectibles.set result L[first]).take (result + 1) = _
        rw [take_succ_set _ _ _ (by omega), htake, hL, List.filter_append]
        simp [hc']

lemma update_collectibles (M : Scalar ℝ) (g : Game ℝ) (dt : ℝ) (draws : Nat → SpawnDraw ℝ) :
    (Game.update M g dt draws).collectibles =
      ((Game.checkCollisions M
        { g with gameTime := g.gameTime + dt,
                 collectibles := g.collectibles.map fun c => c.update dt }).collectibles).filter
        (fun o => !o.collected) := by
  unfold Game.update
  simp only
  exact removeIfLoop_take draws _ _ 0 0 0 _ (by simp) (le_refl _) (le_refl _)
    (fun j _ _ => rfl) (by simp)

lemma GameObject.update_fields (o : GameObject ℝ) (dt : ℝ) :
    (o.update dt).collected = o.collected ∧ (o.update dt).position = o.position
      ∧ (o.update dt).boundingRadius = o.boundingRadius := by
  unfold GameObject.update
  by_cases hc : o.collected = true
  · rw [if_pos hc]
    exact ⟨rfl, rfl, rfl⟩
  · rw [if_neg hc]
    dsimp only
    split_ifs <;> exact ⟨rfl, rfl, rfl⟩

lemma collide_near (dt : ℝ) :
    (if ((GameObject.new 0 (⟨0, 0, 0⟩ : Vec3 ℝ) (Vec3.splat 0.3)).update dt).collected = false ∧
          Vec3.length realMath (Vec3.sub (⟨0, 0, 0⟩ : Vec3 ℝ)
            ((GameObject.new 0 (⟨0, 0, 0⟩ : Vec3 ℝ) (Vec3.splat 0.3)).update dt).position)
          < 0.8 + ((GameObject.new 0 (⟨0, 0, 0⟩ : Vec3 ℝ) (Vec3.splat 0.3)).update dt).boundingRadius
      then ((GameObject.new 0 (⟨0, 0, 0⟩ : Vec3 ℝ) (Vec3.splat 0.3)).update dt).setCollected true
      else (GameObject.new 0 (⟨0, 0, 0⟩ : Vec3 ℝ) (Vec3.splat 0.3)).update dt)
      = ((GameObject.new 0 (⟨0, 0, 0⟩ : Vec3 ℝ) (Vec3.splat 0.3)).update dt).setCollected true := by
  obtain ⟨hc, hp, hb⟩ := GameObject.update_fields (GameObject.new 0 (⟨0, 0, 0⟩ : Vec3 ℝ)
    (Vec3.splat 0.3)) dt
  have hsub : Vec3.sub (⟨0, 0, 0⟩ : Vec3 ℝ) ⟨0, 0, 0⟩ = ⟨0, 0, 0⟩ := by
    ext <;> simp [Vec3.sub]
  have hreach : Vec3.length realMath (Vec3.sub (⟨0, 0, 0⟩ : Vec3 ℝ)
      ((GameObject.new 0 (⟨0, 0, 0⟩ : Vec3 ℝ) (Vec3.splat 0.3)).update dt).position)
      < 0.8 + ((GameObject.new 0 (⟨0, 0, 0⟩ : Vec3 ℝ) (Vec3.splat 0.3)).update dt).boundingRadius := by
    rw [hp, hb]
    show Vec3.length realMath (Vec3.sub (⟨0, 0, 0⟩ : Vec3 ℝ) ⟨0, 0, 0⟩) < _
    rw [hsub, Vec3.length_axis_z]
    norm_num [GameObject.new, Vec3.splat]
  have hfalse : ((GameObject.new 0 (⟨0, 0, 0⟩ : Vec3 ℝ) (Vec3.splat 0.3)).update dt).collected
      = false := hc
  simp only [hfalse, hreach, and_self, if_true]

lemma collide_far (dt : ℝ) :
    (if ((GameObject.new 0 (⟨0, 0, -10⟩ : Vec3 ℝ) (Vec3.splat 0.3)).update dt).collected = false ∧
          Vec3.length realMath (Vec3.sub (⟨0, 0, 0⟩ : Vec3 ℝ)
            ((GameObject.new 0 (⟨0, 0, -10⟩ : Vec3 ℝ) (Vec3.splat 0.3)).update dt).position)
          < 0.8 + ((GameObject.new 0 (⟨0, 0, -10⟩ : Vec3 ℝ) (Vec3.splat 0.3)).update dt).boundingRadius
      then ((GameObject.new 0 (⟨0, 0, -10⟩ : Vec3 ℝ) (Vec3.splat 0.3)).update dt).setCollected true
      else (GameObject.new 0 (⟨0, 0, -10⟩ : Vec3 ℝ) (Vec3.splat 0.3)).update dt)
      = (GameObject.new 0 (⟨0, 0, -10⟩ : Vec3 ℝ) (Vec3.splat 0.3)).update dt := by
  obtain ⟨-, hp, hb⟩ := GameObject.update_fields (GameObject.new 0 (⟨0, 0, -10⟩ : Vec3 ℝ)
    (Vec3.splat 0.3)) dt
  have hsub : Vec3.sub (⟨0, 0, 0⟩ : Vec3 ℝ) ⟨0, 0, -10⟩ = ⟨0, 0, 10⟩ := by
    ext <;> simp [Vec3.sub]
  have hfar : ¬ Vec3.length realMath (Vec3.sub (⟨0, 0, 0⟩ : Vec3 ℝ)
      ((GameObject.new 0 (⟨0, 0, -10⟩ : Vec3 ℝ) (Vec3.splat 0.3)).update dt).position)
      < 0.8 + ((GameObject.new 0 (⟨0, 0, -10⟩ : Vec3 ℝ) (Vec3.splat 0.3)).update dt).boundingRadius := by
    rw [hp, hb]
    show ¬ Vec3.length realMath (Vec3.sub (⟨0, 0, 0⟩ : Vec3 ℝ) ⟨0, 0, -10⟩) < _
    rw [hsub, Vec3.length_axis_z]
    norm_num [GameObject.new, Vec3.splat]
  simp only [hfar, and_false, if_false]

lemma update_oneInReach_collectibles (dt : ℝ) (draws : Nat → SpawnDraw ℝ) :
    (Game.update realMath Game.oneInReach dt draws).collectibles =
      List.replicate 14 ((GameObject.new 0 (⟨0, 0, -10⟩ : Vec3 ℝ) (Vec3.splat 0.3)).update dt) := by
  rw [update_collectibles, checkCollisions_collectibles]
  simp only [Game.oneInReach, Game.atOrigin, Camera.lookingForward, List.map_cons,
    List.map_replicate]
  rw [collide_near, collide_far]
  have hfar : ((GameObject.new 0 (⟨0, 0, -10⟩ : Vec3 ℝ) (Vec3.splat 0.3)).update dt).collected
      = false := (GameObject.update_fields _ dt).1
  rw [List.filter_cons_of_neg (by simp [GameObject.setCollected]), List.filter_replicate]
  simp [hfar]

/-- C18, the code at a failing input: with 15 uncollected collectibles, one of
them within reach of the camera, `Game::update` returns a list of 14
collectibles, none of them flagged: the collected one is removed and the
collectible spawned for it is erased together with the tail of the buffer. -/
theorem update_erases_respawned_collectible :
    (Game.oneInReach : Game ℝ).collectibles.length = 15
      ∧ (∀ o, o ∈ (Game.oneInReach : Game ℝ).collectibles → o.collected = false)
      ∧ (Game.update realMath Game.oneInReach 0.016 SpawnDraw.fixed).collectibles.length = 14
      ∧ (∀ o, o ∈ (Game.update realMath Game.oneInReach 0.016 SpawnDraw.fixed).collectibles →
          o.collected = false) := by
  refine ⟨rfl, fun o ho => ?_, ?_, fun o ho => ?_⟩
  · simp only [Game.oneInReach, Game.atOrigin, List.mem_cons, List.mem_replicate] at ho
    rcases ho with rfl | ⟨-, rfl⟩ <;> rfl
  · rw [update_oneInReach_collectibles, List.length_replicate]
  · rw [update_oneInReach_collectibles] at ho
    rw [List.eq_of_mem_replicate ho]
    exact (GameObject.update_fields _ _).1

/-! ## Camera: the keyboard step at the frame cap -/

/-- C19, the code at a failing input: for the default camera at rest (front
`(0,0,-1)`, desired velocity `(0,0,-5)` for Forward), `dt = 0.1` gives the
velocity `(0, 0, 5)` after one `processKeyboard(Forward, dt)` call, which points
against the desired direction, and `(0, 0, 7.5)` after two calls, whose length
7.5 exceeds `movementSpeed = 5`. -/
theorem processKeyboard_frame_cap_reverses :
    Camera.desiredVelocity realMath (Camera.new realMath ⟨0, 0, 0⟩ ⟨0, 1, 0⟩ (-90) 0) 1
        = ⟨0, 0, -5⟩
      ∧ (Camera.new realMath ⟨0, 0, 0⟩ ⟨0, 1, 0⟩ (-90) 0).movementSpeed = 5
      ∧ (Camera.repeatKeyboard realMath (Camera.new realMath ⟨0, 0, 0⟩ ⟨0, 1, 0⟩ (-90) 0)
          1 0.1 1).velocity = ⟨0, 0, 5⟩
      ∧ Vec3.dot (Camera.repeatKeyboard realMath (Camera.new realMath ⟨0, 0, 0⟩ ⟨0, 1, 0⟩ (-90) 0)
          1 0.1 1).velocity ⟨0, 0, -5⟩ < 0
      ∧ (Camera.repeatKeyboard realMath (Camera.new realMath ⟨0, 0, 0⟩ ⟨0, 1, 0⟩ (-90) 0)
          1 0.1 2).velocity = ⟨0, 0, 7.5⟩
      ∧ (5 : ℝ) < Vec3.length realMath
          (Camera.repeatKeyboard realMath (Camera.new realMath ⟨0, 0, 0⟩ ⟨0, 1, 0⟩ (-90) 0)
            1 0.1 2).velocity := by
  rw [new_default_eq]
  have h1 : (Camera.repeatKeyboard realMath (Camera.lookingForward ⟨0, 0, 0⟩) 1 0.1 1).velocity
      = ⟨0, 0, 5⟩ := by
    rw [repeatKeyboard_succ]
    have hw : (5 : ℝ) = (0 + (-5 - 0) * 20 * 0.1) * (1 - 15 * 0.1) := by norm_num
    rw [processKeyboard_forward_velocity _ 0.1 0 5
      (repeatKeyboard_rig _ 1 0.1 0 (lookingForward_rig _)) rfl hw, if_neg]
    norm_num [abs_of_pos]
  have h2 : (Camera.repeatKeyboard realMath (Camera.lookingForward ⟨0, 0, 0⟩) 1 0.1 2).velocity
      = ⟨0, 0, 7.5⟩ := by
    rw [repeatKeyboard_succ]
    have hw : (7.5 : ℝ) = (5 + (-5 - 5) * 20 * 0.1) * (1 - 15 * 0.1) := by norm_num
    rw [processKeyboard_forward_velocity _ 0.1 5 7.5
      (repeatKeyboard_rig _ 1 0.1 1 (lookingForward_rig _)) h1 hw, if_neg]
    norm_num [abs_of_pos]
  refine ⟨desiredVelocity_forward _ (lookingForward_rig _), rfl, h1, ?_, h2, ?_⟩
  · rw [h1]
    norm_num [Vec3.dot]
  · rw [h2, Vec3.length_axis_z]
    norm_num [abs_of_pos]

lemma processKeyboard_idle_length_le (c : Camera ℝ) (direction : Int) (dt : ℝ)
    (hno : noDirectionBit direction) :
    Vec3.length realMath (Camera.processKeyboard realMath c direction dt).velocity
      ≤ |(1 - c.acceleration * dt) * (1 - c.friction * dt)| * Vec3.length realMath c.velocity := by
  rw [processKeyboard_idle c direction dt hno]
  split_ifs with hsnap
  · have h0 : Vec3.length realMath (⟨0, 0, 0⟩ : Vec3 ℝ) = 0 := by
      rw [Vec3.length_axis_z, abs_zero]
    rw [h0]
    exact mul_nonneg (abs_nonneg _) (by unfold Vec3.length; exact Real.sqrt_nonneg _)
  · rw [Vec3.length_scale]

lemma decay_factor_lt_one (dt : ℝ) (hdt0 : 0 < dt) (hdt : dt ≤ 0.1) :
    |(1 - 20 * dt) * (1 - 15 * dt)| < 1 := by
  have hdt' : dt ≤ 1 / 10 := by norm_num at hdt; linarith
  rw [abs_lt]
  constructor
  · nlinarith [sq_nonneg (dt - 7 / 120)]
  · nlinarith

lemma processKeyboard_acceleration_friction (c : Camera ℝ) (direction : Int) (dt : ℝ) :
    (Camera.processKeyboard realMath c direction dt).acceleration = c.acceleration
      ∧ (Camera.processKeyboard realMath c direction dt).friction = c.friction := by
  rw [processKeyboard_eq]
  exact ⟨rfl, rfl⟩

lemma repeatKeyboard_acceleration_friction (c : Camera ℝ) (direction : Int) (dt : ℝ) (n : Nat) :
    (Camera.repeatKeyboard realMath c direction dt n).acceleration = c.acceleration
      ∧ (Camera.repeatKeyboard realMath c direction dt n).friction = c.friction := by
  induction n with
  | zero => exact ⟨rfl, rfl⟩
  | succ n ih =>
    rw [repeatKeyboard_succ]
    obtain ⟨h1, h2⟩ := processKeyboard_acceleration_friction
      (Camera.repeatKeyboard realMath c direction dt n) direction dt
    exact ⟨h1.trans ih.1, h2.trans ih.2⟩

/-- C20: with no direction bit set, acceleration 20 and friction 15, for every
`dt` with `0 < dt ≤ 0.1`: one `processKeyboard` call on a non-zero velocity gives
`|velocity'| ≤ |(1 - 20 dt)(1 - 15 dt)| * |velocity| < |velocity|`, and under
repeated calls the speed never grows. -/
theorem processKeyboard_idle_decay (c : Camera ℝ) (direction : Int) (dt : ℝ)
    (hno : noDirectionBit direction) (ha : c.acceleration = 20) (hf : c.friction = 15)
    (hdt0 : 0 < dt) (hdt : dt ≤ 0.1) :
    (c.velocity ≠ ⟨0, 0, 0⟩ →
        Vec3.length realMath (Camera.processKeyboard realMath c direction dt).velocity
            ≤ |(1 - 20 * dt) * (1 - 15 * dt)| * Vec3.length realMath c.velocity
          ∧ |(1 - 20 * dt) * (1 - 15 * dt)| * Vec3.length realMath c.velocity
            < Vec3.length realMath c.velocity)
      ∧ ∀ n : Nat,
          Vec3.length realMath (Camera.repeatKeyboard realMath c direction dt (n + 1)).velocity
            ≤ Vec3.length realMath (Camera.repeatKeyboard realMath c direction dt n).velocity := by
  have hfac := decay_factor_lt_one dt hdt0 hdt
  constructor
  · intro hv
    have hle := processKeyboard_idle_length_le c direction dt hno
    rw [ha, hf] at hle
    have hpos : 0 < Vec3.length realMath c.velocity := (Vec3.length_pos_iff _).2 hv
    exact ⟨hle, by nlinarith⟩
  · intro n
    rw [repeatKeyboard_succ]
    have hle := processKeyboard_idle_length_le
      (Camera.repeatKeyboard realMath c direction dt n) direction dt hno
    obtain ⟨ha', hf'⟩ := repeatKeyboard_acceleration_friction c direction dt n
    rw [ha', hf', ha, hf] at hle
    have hnn : 0 ≤ Vec3.length realMath (Camera.repeatKeyboard realMath c direction dt n).velocity := by
      unfold Vec3.length
      exact Real.sqrt_nonneg _
    nlinarith

/-- C20 at concrete inputs: from velocity `(1, 0, 0)` with bitmask 0 and
`dt = 0.1` the decay factor is `|(-1)(-0.5)| = 0.5` and the new speed is at most
`0.5 * 1`. -/
theorem processKeyboard_idle_decay_witness :
    Vec3.length realMath
        (Camera.processKeyboard realMath (Camera.lookingForward ⟨1, 0, 0⟩) 0 0.1).velocity
      ≤ |(1 - 20 * (0.1 : ℝ)) * (1 - 15 * 0.1)|
          * Vec3.length realMath (Camera.lookingForward (⟨1, 0, 0⟩ : Vec3 ℝ)).velocity := by
  have hno : noDirectionBit 0 := by
    intro k hk
    interval_cases k <;> decide
  have hv : (Camera.lookingForward (⟨1, 0, 0⟩ : Vec3 ℝ)).velocity ≠ ⟨0, 0, 0⟩ := by
    intro h
    have := congrArg Vec3.x h
    simp [Camera.lookingForward] at this
  exact ((processKeyboard_idle_decay (Camera.lookingForward ⟨1, 0, 0⟩) 0 0.1 hno rfl rfl
    (by norm_num) (le_refl _)).1 hv).1

/-! ## Camera: the snap threshold as an invariant -/

lemma processKeyboard_velocity_snapped (c : Camera ℝ) (direction : Int) (dt : ℝ) :
    (Camera.processKeyboard realMath c direction dt).velocity = ⟨0, 0, 0⟩
      ∨ 0.01 ≤ Vec3.length realMath (Camera.processKeyboard realMath c direction dt).velocity := by
  rw [processKeyboard_eq]
  simp only
  split_ifs with h
  · exact Or.inl rfl
  · exact Or.inr (not_lt.1 h)

lemma processMouseMovement_velocity (c : Camera ℝ) (dx dy : ℝ) (b : Bool) :
    (Camera.processMouseMovement realMath c dx dy b).velocity = c.velocity := by
  cases b <;> rfl

lemma call_velocity_snapped (c : Camera ℝ) (call : CameraCall ℝ)
    (h : c.velocity = ⟨0, 0, 0⟩ ∨ 0.01 ≤ Vec3.length realMath c.velocity) :
    (Camera.call realMath c call).velocity = ⟨0, 0, 0⟩
      ∨ 0.01 ≤ Vec3.length realMath (Camera.call realMath c call).velocity := by
  cases call with
  | op o =>
    cases o with
    | keyboard direction dt => exact processKeyboard_velocity_snapped c direction dt
    | mouseMovement dx dy b =>
      show (Camera.processMouseMovement realMath c dx dy b).velocity = _ ∨ _ ≤
        Vec3.length realMath (Camera.processMouseMovement realMath c dx dy b).velocity
      rw [processMouseMovement_velocity]
      exact h
    | mouseScroll dy => exact h
  | setPosition pos => exact h
  | setSpeed speed => exact h
  | setSensitivity sensitivity => exact h

lemma calls_velocity_snapped (cs : List (CameraCall ℝ)) (c : Camera ℝ)
    (h : c.velocity = ⟨0, 0, 0⟩ ∨ 0.01 ≤ Vec3.length realMath c.velocity) :
    (Camera.calls realMath c cs).velocity = ⟨0, 0, 0⟩
      ∨ 0.01 ≤ Vec3.length realMath (Camera.calls realMath c cs).velocity := by
  induction cs generalizing c with
  | nil => exact h
  | cons call cs ih =>
    have hstep : Camera.calls realMath c (call :: cs)
        = Camera.calls realMath (Camera.call realMath c call) cs := rfl
    rw [hstep]
    exact ih _ (call_velocity_snapped c call h)

/-- C21: after every `processKeyboard` call, for every state, bitmask and `dt`,
the velocity is exactly zero or has length at least 0.01; a freshly constructed
camera has zero velocity, and the property holds after any sequence of public
camera calls (the three input operations and the three setters). -/
theorem processKeyboard_velocity_zero_or_above_snap :
    (∀ (c : Camera ℝ) (direction : Int) (dt : ℝ),
        (Camera.processKeyboard realMath c direction dt).velocity = ⟨0, 0, 0⟩
          ∨ 0.01 ≤ Vec3.length realMath (Camera.processKeyboard realMath c direction dt).velocity)
      ∧ (∀ (position up : Vec3 ℝ) (yaw pitch : ℝ),
          (Camera.new realMath position up yaw pitch).velocity = ⟨0, 0, 0⟩)
      ∧ ∀ (position up : Vec3 ℝ) (yaw pitch : ℝ) (cs : List (CameraCall ℝ)),
          (Camera.calls realMath (Camera.new realMath position up yaw pitch) cs).velocity
              = ⟨0, 0, 0⟩
            ∨ 0.01 ≤ Vec3.length realMath
                (Camera.calls realMath (Camera.new realMath position up yaw pitch) cs).velocity := by
  have hnew : ∀ (position up : Vec3 ℝ) (yaw pitch : ℝ),
      (Camera.new realMath position up yaw pitch).velocity = ⟨0, 0, 0⟩ := by
    intro position up yaw pitch
    show (Vec3.splat (0.0 : ℝ)) = _
    ext <;> norm_num [Vec3.splat]
  exact ⟨processKeyboard_velocity_snapped, hnew,
    fun position up yaw pitch cs => calls_velocity_snapped cs _ (Or.inl (hnew _ _ _ _))⟩

/-! ## Game: score and counter -/

lemma checkCollisionsLoop_counts (M : Scalar ℝ) (cameraPos : Vec3 ℝ) (radius : ℝ)
    (l : List (GameObject ℝ)) (score count : Int) :
    (Game.checkCollisionsLoop M cameraPos radius l score count).2.1
        = score + 10 * ((l.filter fun o => decide (o.collected = false ∧
            Vec3.length M (Vec3.sub cameraPos o.position) < radius + o.boundingRadius)).length : Int)
      ∧ (Game.checkCollisionsLoop M cameraPos radius l score count).2.2
        = count + ((l.filter fun o => decide (o.collected = false ∧
            Vec3.length M (Vec3.sub cameraPos o.position) < radius + o.boundingRadius)).length : Int) := by
  induction l generalizing score count with
  | nil => simp [Game.checkCollisionsLoop]
  | cons o l ih =>
    unfold Game.checkCollisionsLoop
    by_cases hc : o.collected = true
    · have hp : ¬ (o.collected = false ∧
          Vec3.length M (Vec3.sub cameraPos o.position) < radius + o.boundingRadius) := by
        simp [hc]
      rw [List.filter_cons_of_neg (by simpa using hp)]
      simp only [hc, if_true]
      exact ih score count
    · have hc' : o.collected = false := by simpa using hc
      by_cases hd : Vec3.length M (Vec3.sub cameraPos o.position) < radius + o.boundingRadius
      · rw [List.filter_cons_of_pos (by simp [hc', hd])]
        simp only [hc', Bool.false_eq_true, if_false, hd, if_true, List.length_cons]
        obtain ⟨h1, h2⟩ := ih (score + 10) (count + 1)
        rw [h1, h2]
        push_cast
        constructor <;> ring
      · rw [List.filter_cons_of_neg (by simp [hd])]
        simp only [hc', Bool.false_eq_true, if_false, hd]
        exact ih score count

lemma checkCollisions_counts (g : Game ℝ) :
    (Game.checkCollisions realMath g).score
        = g.score + 10 * ((g.collectibles.filter fun o => decide (o.collected = false ∧
            Vec3.length realMath (Vec3.sub g.camera.position o.position)
              < 0.8 + o.boundingRadius)).length : Int)
      ∧ (Game.checkCollisions realMath g).collectiblesCollected
        = g.collectiblesCollected + ((g.collectibles.filter fun o => decide (o.collected = false ∧
            Vec3.length realMath (Vec3.sub g.camera.position o.position)
              < 0.8 + o.boundingRadius)).length : Int) :=
  checkCollisionsLoop_counts realMath g.camera.position 0.8 g.collectibles g.score
    g.collectiblesCollected

lemma step_score (g : Game ℝ) (s : GameStep ℝ) (h : g.score = 10 * g.collectiblesCollected) :
    (Game.step realMath g s).score = 10 * (Game.step realMath g s).collectiblesCollected := by
  cases s with
  | checkCollisions =>
    show (Game.checkCollisions realMath g).score
      = 10 * (Game.checkCollisions realMath g).collectiblesCollected
    obtain ⟨h1, h2⟩ := checkCollisions_counts g
    rw [h1, h2, h]
    ring
  | rearrange camera collectibles => exact h

lemma steps_score (ss : List (GameStep ℝ)) (g : Game ℝ)
    (h : g.score = 10 * g.collectiblesCollected) :
    (Game.steps realMath g ss).score = 10 * (Game.steps realMath g ss).collectiblesCollected := by
  induction ss generalizing g with
  | nil => exact h
  | cons s ss ih =>
    have hstep : Game.steps realMath g (s :: ss)
        = Game.steps realMath (Game.step realMath g s) ss := rfl
    rw [hstep]
    exact ih _ (step_score g s h)

lemma checkCollisions_none_left (g : Game ℝ) :
    ((Game.checkCollisions realMath g).collectibles.filter fun o => decide (o.collected = false ∧
        Vec3.length realMath (Vec3.sub g.camera.position o.position) < 0.8 + o.boundingRadius))
      = [] := by
  rw [List.filter_eq_nil_iff, checkCollisions_collectibles]
  intro o' ho'
  rw [List.mem_map] at ho'
  obtain ⟨o, -, rfl⟩ := ho'
  by_cases hp : o.collected = false ∧
      Vec3.length realMath (Vec3.sub g.camera.position o.position) < 0.8 + o.boundingRadius
  · rw [if_pos hp]
    simp [GameObject.setCollected]
  · rw [if_neg hp]
    simpa using hp

/-- C22: in every state reached from the constructed game by any sequence of
`checkCollisions` calls and rearrangements of the camera and the collectibles,
`score = 10 * collectiblesCollected`.  One `checkCollisions` call raises the
counter by the number of collectibles that are not yet collected and strictly
inside their threshold (and the score by ten times that number), leaves every
collected collectible as it is, and a second call right after it counts
nothing. -/
theorem checkCollisions_score (g : Game ℝ) :
    (∀ (camera : Camera ℝ) (collectibleModel : Nat) (ss : List (GameStep ℝ)),
        (Game.steps realMath (Game.new camera collectibleModel) ss).score
          = 10 * (Game.steps realMath (Game.new camera collectibleModel) ss).collectiblesCollected)
      ∧ (Game.checkCollisions realMath g).collectiblesCollected
          = g.collectiblesCollected + ((g.collectibles.filter fun o => decide (o.collected = false ∧
              Vec3.length realMath (Vec3.sub g.camera.position o.position)
                < 0.8 + o.boundingRadius)).length : Int)
      ∧ (Game.checkCollisions realMath g).score
          = g.score + 10 * ((g.collectibles.filter fun o => decide (o.collected = false ∧
              Vec3.length realMath (Vec3.sub g.camera.position o.position)
                < 0.8 + o.boundingRadius)).length : Int)
      ∧ (∀ (i : Nat) (o : GameObject ℝ), g.collectibles[i]? = some o → o.collected = true →
          (Game.checkCollisions realMath g).collectibles[i]? = some o)
      ∧ (Game.checkCollisions realMath (Game.checkCollisions realMath g)).collectiblesCollected
          = (Game.checkCollisions realMath g).collectiblesCollected
      ∧ (Game.checkCollisions realMath (Game.checkCollisions realMath g)).score
          = (Game.checkCollisions realMath g).score := by
  obtain ⟨hscore, hcount⟩ := checkCollisions_counts g
  obtain ⟨hscore2, hcount2⟩ := checkCollisions_counts (Game.checkCollisions realMath g)
  have hcam : (Game.checkCollisions realMath g).camera = g.camera := rfl
  rw [hcam, checkCollisions_none_left g] at hscore2 hcount2
  refine ⟨fun camera collectibleModel ss => steps_score ss _ rfl, hcount, hscore,
    fun i o hi hc => ?_, by simpa using hcount2, by simpa using hscore2⟩
  rw [checkCollisions_collectibles, List.getElem?_map, hi]
  simp [hc]

/-- C22 at concrete inputs: a constructed game that is given one collectible at
the camera position and then runs `checkCollisions` twice satisfies
`score = 10 * collectiblesCollected`. -/
theorem checkCollisions_score_witness :
    (Game.steps realMath (Game.new (Camera.lookingForward ⟨0, 0, 0⟩) 0)
        [GameStep.rearrange (Camera.lookingForward ⟨0, 0, 0⟩)
            [GameObject.new 0 ⟨0, 0, 0⟩ (Vec3.splat 0.3)],
          GameStep.checkCollisions, GameStep.checkCollisions]).score
      = 10 * (Game.steps realMath (Game.new (Camera.lookingForward ⟨0, 0, 0⟩) 0)
        [GameStep.rearrange (Camera.lookingForward ⟨0, 0, 0⟩)
            [GameObject.new 0 ⟨0, 0, 0⟩ (Vec3.splat 0.3)],
          GameStep.checkCollisions, GameStep.checkCollisions]).collectiblesCollected :=
  (checkCollisions_score (Game.atOrigin [])).1 _ _ _

/-! ## Camera: the direction bitmask -/

lemma processKeyboard_congr (c : Camera ℝ) (d1 d2 : Int) (dt : ℝ)
    (h : Camera.signedSum c d1 = Camera.signedSum c d2) :
    Camera.processKeyboard realMath c d1 dt = Camera.processKeyboard realMath c d2 dt := by
  have hd : Camera.desiredVelocity realMath c d1 = Camera.desiredVelocity realMath c d2 := by
    rw [desiredVelocity_eq, desiredVelocity_eq, h]
  rw [processKeyboard_eq, processKeyboard_eq, hd]

lemma signedSum_of_bits (c : Camera ℝ) (d : Int) (b0 b1 b2 b3 : Bool)
    (h0 : directionBit d 0 = b0) (h1 : directionBit d 1 = b1) (h2 : directionBit d 2 = b2)
    (h3 : directionBit d 3 = b3) :
    Camera.signedSum c d =
      Vec3.add (Vec3.scale c.front ((if b0 then 1 else 0) - (if b1 then 1 else 0)))
        (Vec3.scale c.right ((if b3 then 1 else 0) - (if b2 then 1 else 0))) := by
  unfold Camera.signedSum
  rw [h0, h1, h2, h3]

lemma directionBit_land_fifteen (d : Int) (k : Nat) (hk : k < 4) :
    directionBit (Int.land d 15) k = directionBit d k := by
  unfold directionBit
  rw [Int.testBit_land]
  have h15 : (15 : Int).testBit k = true := by
    interval_cases k <;> decide
  rw [h15, Bool.and_true]

/-- C23: `processKeyboard` depends only on the low four bits of `direction`
(`direction & 0x0F` gives the same result), opposing bits cancel (the bitmasks
`Forward|Backward = 3`, `Left|Right = 12` and all four bits `15` act like the
empty bitmask), and `Forward|Backward|Right = 11` acts like `Right = 8`. -/
theorem processKeyboard_low_bits (c : Camera ℝ) (direction : Int) (dt : ℝ) :
    Camera.processKeyboard realMath c direction dt
        = Camera.processKeyboard realMath c (Int.land direction 15) dt
      ∧ Camera.processKeyboard realMath c 3 dt = Camera.processKeyboard realMath c 0 dt
      ∧ Camera.processKeyboard realMath c 12 dt = Camera.processKeyboard realMath c 0 dt
      ∧ Camera.processKeyboard realMath c 15 dt = Camera.processKeyboard realMath c 0 dt
      ∧ Camera.processKeyboard realMath c 11 dt = Camera.processKeyboard realMath c 8 dt := by
  have h0 : Camera.signedSum c 0 = ⟨0, 0, 0⟩ := by
    rw [signedSum_of_bits c 0 false false false false (by decide) (by decide) (by decide)
      (by decide)]
    ext <;> simp [Vec3.add, Vec3.scale]
  refine ⟨processKeyboard_congr c _ _ dt ?_, processKeyboard_congr c _ _ dt ?_,
    processKeyboard_congr c _ _ dt ?_, processKeyboard_congr c _ _ dt ?_,
    processKeyboard_congr c _ _ dt ?_⟩
  · rw [signedSum_of_bits c (Int.land direction 15) _ _ _ _
      (directionBit_land_fifteen direction 0 (by norm_num))
      (directionBit_land_fifteen direction 1 (by norm_num))
      (directionBit_land_fifteen direction 2 (by norm_num))
      (directionBit_land_fifteen direction 3 (by norm_num))]
    rfl
  · rw [h0, signedSum_of_bits c 3 true true false false (by decide) (by decide) (by decide)
      (by decide)]
    ext <;> simp [Vec3.add, Vec3.scale]
  · rw [h0, signedSum_of_bits c 12 false false true true (by decide) (by decide) (by decide)
      (by decide)]
    ext <;> simp [Vec3.add, Vec3.scale]
  · rw [h0, signedSum_of_bits c 15 true true true true (by decide) (by decide) (by decide)
      (by decide)]
    ext <;> simp [Vec3.add, Vec3.scale]
  · rw [signedSum_of_bits c 11 true true false true (by decide) (by decide) (by decide)
        (by decide),
      signedSum_of_bits c 8 false false false true (by decide) (by decide) (by decide)
        (by decide)]
    ext <;> simp [Vec3.add, Vec3.scale]

/-! ## Camera: which members each operation writes -/

/-- C24: `processKeyboard` changes only velocity and position,
`processMouseMovement` only yaw, pitch, front, right and up, `processMouseScroll`
only zoom, and `setPosition`, `setSpeed`, `setSensitivity` only their one
member: each result is the old state with just those members replaced. -/
theorem camera_operations_frame (c : Camera ℝ) :
    (∀ (direction : Int) (dt : ℝ),
        Camera.processKeyboard realMath c direction dt =
          { c with
            velocity := (Camera.processKeyboard realMath c direction dt).velocity
            position := (Camera.processKeyboard realMath c direction dt).position })
      ∧ (∀ (dx dy : ℝ) (constrainPitch : Bool),
          Camera.processMouseMovement realMath c dx dy constrainPitch =
            { c with
              yaw := (Camera.processMouseMovement realMath c dx dy constrainPitch).yaw
              pitch := (Camera.processMouseMovement realMath c dx dy constrainPitch).pitch
              front := (Camera.processMouseMovement realMath c dx dy constrainPitch).front
              right := (Camera.processMouseMovement realMath c dx dy constrainPitch).right
              up := (Camera.processMouseMovement realMath c dx dy constrainPitch).up })
      ∧ (∀ dy : ℝ,
          Camera.processMouseScroll c dy = { c with zoom := (Camera.processMouseScroll c dy).zoom })
      ∧ (∀ pos : Vec3 ℝ, Camera.setPosition c pos = { c with position := pos })
      ∧ (∀ speed : ℝ, Camera.setSpeed c speed = { c with movementSpeed := speed })
      ∧ (∀ sensitivity : ℝ,
          Camera.setSensitivity c sensitivity = { c with mouseSensitivity := sensitivity }) := by
  refine ⟨fun direction dt => ?_, fun dx dy b => ?_, fun dy => rfl, fun pos => rfl,
    fun speed => rfl, fun sensitivity => rfl⟩
  · rw [processKeyboard_eq]
  · cases b <;> rfl

/-! ## GameObject: rotation and bobbing -/

lemma GameObject.update_uncollected (o : GameObject ℝ) (dt : ℝ) (hc : o.collected = false) :
    o.update dt =
      { o with
        rotation :=
          if o.rotation + o.rotationSpeed * dt ≥ 360 then o.rotation + o.rotationSpeed * dt - 360
          else o.rotation + o.rotationSpeed * dt
        bobOffset :=
          if o.bobOffset + o.bobSpeed * dt ≥ GameObject.twoPi
          then o.bobOffset + o.bobSpeed * dt - GameObject.twoPi
          else o.bobOffset + o.bobSpeed * dt } := by
  have h360 : (360.0 : ℝ) = 360 := by norm_num
  unfold GameObject.update GameObject.twoPi
  rw [if_neg (by simp [hc])]
  simp only [h360]
  split_ifs <;> rfl

lemma GameObject.twoPi_pos : (6 : ℝ) < GameObject.twoPi := by
  unfold GameObject.twoPi
  norm_num

/-- C25: `GameObject::update(dt)` leaves a collected object unchanged.  For an
uncollected object with the constructor's speeds (45 and 2), rotation in
`[0, 360)`, bob offset in `[0, twoPi)` and `0 ≤ dt ≤ 0.1`, the new rotation is
`rotation + 45 dt`, less 360 if that is at least 360, the new bob offset is
`bobOffset + 2 dt`, less `twoPi` if that is at least `twoPi`; both stay in
their ranges and no other member changes.  `twoPi` is the constant
`2.0f * 3.14159265358979323846f` of the source, which lies within `2e-20`
below `2π`. -/
theorem GameObject_update_wraps (o : GameObject ℝ) (dt : ℝ) :
    (o.collected = true → o.update dt = o)
      ∧ (o.collected = false → o.rotationSpeed = 45 → o.bobSpeed = 2 →
          0 ≤ o.rotation → o.rotation < 360 → 0 ≤ o.bobOffset → o.bobOffset < GameObject.twoPi →
          0 ≤ dt → dt ≤ 0.1 →
          (o.update dt).rotation
              = (if o.rotation + 45 * dt ≥ 360 then o.rotation + 45 * dt - 360
                  else o.rotation + 45 * dt)
            ∧ 0 ≤ (o.update dt).rotation ∧ (o.update dt).rotation < 360
            ∧ (o.update dt).bobOffset
              = (if o.bobOffset + 2 * dt ≥ GameObject.twoPi
                  then o.bobOffset + 2 * dt - GameObject.twoPi
                  else o.bobOffset + 2 * dt)
            ∧ 0 ≤ (o.update dt).bobOffset ∧ (o.update dt).bobOffset < GameObject.twoPi
            ∧ o.update dt =
                { o with rotation := (o.update dt).rotation, bobOffset := (o.update dt).bobOffset })
      ∧ (GameObject.twoPi : ℝ) < 2 * Real.pi
      ∧ 2 * Real.pi < (GameObject.twoPi : ℝ) + 2e-20 := by
  refine ⟨fun hc => ?_, fun hc hrs hbs hr0 hr hb0 hb hdt0 hdt => ?_, ?_, ?_⟩
  · unfold GameObject.update
    rw [if_pos hc]
  · have hdt' : dt ≤ 1 / 10 := by norm_num at hdt; linarith
    have htwo := GameObject.twoPi_pos
    have hrot : (o.update dt).rotation
        = (if o.rotation + 45 * dt ≥ 360 then o.rotation + 45 * dt - 360
            else o.rotation + 45 * dt) := by
      rw [GameObject.update_uncollected o dt hc, hrs]
    have hbob : (o.update dt).bobOffset
        = (if o.bobOffset + 2 * dt ≥ GameObject.twoPi
            then o.bobOffset + 2 * dt - GameObject.twoPi
            else o.bobOffset + 2 * dt) := by
      rw [GameObject.update_uncollected o dt hc, hbs]
    refine ⟨hrot, ?_, ?_, hbob, ?_, ?_, ?_⟩
    · rw [hrot]; split_ifs with h <;> linarith
    · rw [hrot]; split_ifs with h
      · linarith
      · exact not_le.1 h
    · rw [hbob]; split_ifs with h <;> linarith
    · rw [hbob]; split_ifs with h
      · linarith
      · exact not_le.1 h
    · rw [GameObject.update_uncollected o dt hc]
  · have h := Real.pi_gt_d20
    unfold GameObject.twoPi
    norm_num at h ⊢
    linarith
  · have h := Real.pi_lt_d20
    unfold GameObject.twoPi
    norm_num at h ⊢
    linarith

/-- C25 at concrete inputs: an uncollected object with rotation 359 and
`dt = 0.1` has rotation `359 + 4.5 - 360 = 3.5` afterwards, inside `[0, 360)`. -/
theorem GameObject_update_wraps_witness :
    ((GameObject.setRotation (GameObject.new 0 (⟨0, 0, 0⟩ : Vec3 ℝ) (Vec3.splat 0.3)) 359).update
          0.1).rotation
        = (if (359 : ℝ) + 45 * 0.1 ≥ 360 then 359 + 45 * 0.1 - 360 else 359 + 45 * 0.1)
      ∧ ((GameObject.setRotation (GameObject.new 0 (⟨0, 0, 0⟩ : Vec3 ℝ) (Vec3.splat 0.3)) 359).update
          0.1).rotation < 360 := by
  have h := (GameObject_update_wraps
    (GameObject.setRotation (GameObject.new 0 (⟨0, 0, 0⟩ : Vec3 ℝ) (Vec3.splat 0.3)) 359) 0.1).2.1
    rfl (by norm_num [GameObject.setRotation, GameObject.new])
    (by norm_num [GameObject.setRotation, GameObject.new])
    (by norm_num [GameObject.setRotation]) (by norm_num [GameObject.setRotation])
    (by norm_num [GameObject.setRotation, GameObject.new])
    (by
      have := GameObject.twoPi_pos
      norm_num [GameObject.setRotation, GameObject.new]
      linarith)
    (by norm_num) (le_refl _)
  exact ⟨h.1, h.2.2.1⟩

end RenderEngine
